import Mathlib

set_option maxRecDepth 10000

/-!
Verification development for the APIM delegation function app.

The definitions below are a shallow embedding of the JavaScript request
handlers in `delegation/index.js`, `auth-callback/index.js` and
`shared/oidc-helper.js`, together with executable models of the runtime
primitives they rely on (HMAC-SHA512 per FIPS 180-4/198-1, base64 and
UTF-8 codecs, decimal printing, a JSON subset, and WHATWG-style URL
handling restricted to the shapes the handlers produce).  Machine
numbers are embedded as `Nat`/`Int`; JavaScript `undefined` for string
inputs is embedded as `Option String`.
-/

namespace Apim

/-- JavaScript falsiness for an optional string: `undefined` and the empty
string are falsy (`!x` in the source). -/
def jsFalsy : Option String → Bool
  | none => true
  | some s => s = ""

/-- JavaScript string coercion of a possibly-undefined string, as performed
by string concatenation in the source (`undefined` prints as "undefined"). -/
def jsStr : Option String → String
  | none => "undefined"
  | some s => s

/-- The digit character for a value below 10. -/
def digitChar (n : Nat) : Char := Char.ofNat (48 + n)

/-- Little-endian decimal digits of `n`, with explicit fuel so the
definition is structurally recursive and kernel-reducible. -/
def natDigitsAux : Nat → Nat → List Char
  | 0, _ => []
  | _ + 1, 0 => []
  | fuel + 1, n => digitChar (n % 10) :: natDigitsAux fuel (n / 10)

/-- Decimal representation of a natural number, as JavaScript prints
integral numbers. -/
def natDec (n : Nat) : List Char :=
  if n = 0 then ['0'] else (natDigitsAux n n).reverse

/-- Decimal representation of an integer, as JavaScript prints integral
numbers. -/
def intDec (n : Int) : List Char :=
  if n < 0 then '-' :: natDec n.natAbs else natDec n.natAbs

/-- The standard base64 alphabet. -/
def b64Alphabet : List Char :=
  "ABCDEFGHIJKLMNOPQRSTUVWXYZabcdefghijklmnopqrstuvwxyz0123456789+/".data

/-- The base64 character for a 6-bit value. -/
def b64Char (n : Nat) : Char := b64Alphabet.getD n 'A'

/-- The 6-bit value of a base64 character, `none` for padding and
characters outside the alphabet (Node ignores those when decoding). -/
def b64Val (c : Char) : Option Nat :=
  let n := c.toNat
  if 65 ≤ n ∧ n ≤ 90 then some (n - 65)
  else if 97 ≤ n ∧ n ≤ 122 then some (n - 97 + 26)
  else if 48 ≤ n ∧ n ≤ 57 then some (n - 48 + 52)
  else if c = '+' then some 62
  else if c = '/' then some 63
  else none

/-- Base64-encode a byte list with padding, as `Buffer.toString('base64')`
does. -/
def b64Encode : List Nat → List Char
  | [] => []
  | [a] => [b64Char (a / 4), b64Char (a % 4 * 16), '=', '=']
  | [a, b] => [b64Char (a / 4), b64Char (a % 4 * 16 + b / 16), b64Char (b % 16 * 4), '=']
  | a :: b :: c :: rest =>
      b64Char (a / 4) :: b64Char (a % 4 * 16 + b / 16) ::
        b64Char (b % 16 * 4 + c / 64) :: b64Char (c % 64) :: b64Encode rest

/-- Regroup a list of 6-bit values into bytes, dropping a trailing lone
6-bit fragment as Node does. -/
def b64Regroup : List Nat → List Nat
  | [] => []
  | [_] => []
  | [a, b] => [a * 4 + b / 16]
  | [a, b, c] => [a * 4 + b / 16, b % 16 * 16 + c / 4]
  | a :: b :: c :: d :: rest =>
      (a * 4 + b / 16) :: (b % 16 * 16 + c / 4) :: (c % 4 * 64 + d) :: b64Regroup rest

/-- Base64-decode a character list, ignoring characters outside the
alphabet, as `Buffer.from(s, 'base64')` does. -/
def b64Decode (s : List Char) : List Nat :=
  b64Regroup (s.filterMap b64Val)

/-- A byte is below 256. -/
def IsByte (n : Nat) : Prop := n < 256

/-- UTF-8 encoding of one Unicode scalar value, as `Buffer.from(s)`
encodes each character. -/
def utf8EncodeChar (c : Char) : List Nat :=
  let n := c.toNat
  if n < 128 then [n]
  else if n < 2048 then [192 + n / 64, 128 + n % 64]
  else if n < 65536 then [224 + n / 4096, 128 + n / 64 % 64, 128 + n % 64]
  else [240 + n / 262144, 128 + n / 4096 % 64, 128 + n / 64 % 64, 128 + n % 64]

/-- UTF-8 encoding of a character list. -/
def utf8Encode (s : List Char) : List Nat := (s.map utf8EncodeChar).flatten

/-- The Unicode replacement character emitted for invalid byte sequences. -/
def replChar : Char := Char.ofNat 65533

/-- Fuel-indexed total UTF-8 decoder (one unit of fuel per produced
character), modelling `Buffer.toString()`: invalid sequences decode to the
replacement character instead of failing. -/
def utf8DecodeF : Nat → List Nat → List Char
  | 0, _ => []
  | _ + 1, [] => []
  | fuel + 1, b0 :: rest =>
    if b0 < 128 then Char.ofNat b0 :: utf8DecodeF fuel rest
    else if 194 ≤ b0 ∧ b0 < 224 then
      match rest with
      | b1 :: rest2 =>
        if 128 ≤ b1 ∧ b1 < 192 then
          Char.ofNat ((b0 - 192) * 64 + (b1 - 128)) :: utf8DecodeF fuel rest2
        else replChar :: utf8DecodeF fuel rest
      | [] => [replChar]
    else if 224 ≤ b0 ∧ b0 < 240 then
      match rest with
      | b1 :: b2 :: rest3 =>
        if (128 ≤ b1 ∧ b1 < 192) ∧ (128 ≤ b2 ∧ b2 < 192) then
          let n := (b0 - 224) * 4096 + (b1 - 128) * 64 + (b2 - 128)
          if 2048 ≤ n ∧ ¬ (55296 ≤ n ∧ n < 57344) then
            Char.ofNat n :: utf8DecodeF fuel rest3
          else replChar :: utf8DecodeF fuel rest3
        else replChar :: utf8DecodeF fuel rest
      | _ => [replChar]
    else if 240 ≤ b0 ∧ b0 < 245 then
      match rest with
      | b1 :: b2 :: b3 :: rest4 =>
        if (128 ≤ b1 ∧ b1 < 192) ∧ (128 ≤ b2 ∧ b2 < 192) ∧ (128 ≤ b3 ∧ b3 < 192) then
          let n := (b0 - 240) * 262144 + (b1 - 128) * 4096 + (b2 - 128) * 64 + (b3 - 128)
          if 65536 ≤ n ∧ n < 1114112 then
            Char.ofNat n :: utf8DecodeF fuel rest4
          else replChar :: utf8DecodeF fuel rest4
        else replChar :: utf8DecodeF fuel rest
      | _ => [replChar]
    else replChar :: utf8DecodeF fuel rest

/-- Total UTF-8 decoding of a byte list. -/
def utf8Decode (bs : List Nat) : List Char := utf8DecodeF bs.length bs

/-! SHA-512 (FIPS 180-4) and HMAC (FIPS 198-1) over byte lists, the
primitives behind `crypto.createHmac('sha512', keyBytes)` in the source.
64-bit words are `Nat` values below `2 ^ 64`. -/
/-- `2 ^ 64`, the modulus of 64-bit word arithmetic. -/
def M64 : Nat := 18446744073709551616

/-- Addition modulo `2 ^ 64`. -/
def add64 (a b : Nat) : Nat := (a + b) % M64

/-- Bitwise complement of a 64-bit word. -/
def not64 (a : Nat) : Nat := (M64 - 1) - a

/-- Right rotation of a 64-bit word by `n` bits. -/
def rotr64 (n x : Nat) : Nat := ((x >>> n) ||| (x <<< (64 - n))) % M64

/-- The eight SHA-512 initial hash values. -/
def H512 : List Nat :=
  [0x6A09E667F3BCC908, 0xBB67AE8584CAA73B, 0x3C6EF372FE94F82B, 0xA54FF53A5F1D36F1,
   0x510E527FADE682D1, 0x9B05688C2B3E6C1F, 0x1F83D9ABFB41BD6B, 0x5BE0CD19137E2179]

/-- The eighty SHA-512 round constants. -/
def K512 : List Nat :=
  [0x428A2F98D728AE22, 0x7137449123EF65CD, 0xB5C0FBCFEC4D3B2F, 0xE9B5DBA58189DBBC,
   0x3956C25BF348B538, 0x59F111F1B605D019, 0x923F82A4AF194F9B, 0xAB1C5ED5DA6D8118,
   0xD807AA98A3030242, 0x12835B0145706FBE, 0x243185BE4EE4B28C, 0x550C7DC3D5FFB4E2,
   0x72BE5D74F27B896F, 0x80DEB1FE3B1696B1, 0x9BDC06A725C71235, 0xC19BF174CF692694,
   0xE49B69C19EF14AD2, 0xEFBE4786384F25E3, 0x0FC19DC68B8CD5B5, 0x240CA1CC77AC9C65,
   0x2DE92C6F592B0275, 0x4A7484AA6EA6E483, 0x5CB0A9DCBD41FBD4, 0x76F988DA831153B5,
   0x983E5152EE66DFAB, 0xA831C66D2DB43210, 0xB00327C898FB213F, 0xBF597FC7BEEF0EE4,
   0xC6E00BF33DA88FC2, 0xD5A79147930AA725, 0x06CA6351E003826F, 0x142929670A0E6E70,
   0x27B70A8546D22FFC, 0x2E1B21385C26C926, 0x4D2C6DFC5AC42AED, 0x53380D139D95B3DF,
   0x650A73548BAF63DE, 0x766A0ABB3C77B2A8, 0x81C2C92E47EDAEE6, 0x92722C851482353B,
   0xA2BFE8A14CF10364, 0xA81A664BBC423001, 0xC24B8B70D0F89791, 0xC76C51A30654BE30,
   0xD192E819D6EF5218, 0xD69906245565A910, 0xF40E35855771202A, 0x106AA07032BBD1B8,
   0x19A4C116B8D2D0C8, 0x1E376C085141AB53, 0x2748774CDF8EEB99, 0x34B0BCB5E19B48A8,
   0x391C0CB3C5C95A63, 0x4ED8AA4AE3418ACB, 0x5B9CCA4F7763E373, 0x682E6FF3D6B2B8A3,
   0x748F82EE5DEFB2FC, 0x78A5636F43172F60, 0x84C87814A1F0AB72, 0x8CC702081A6439EC,
   0x90BEFFFA23631E28, 0xA4506CEBDE82BDE9, 0xBEF9A3F7B2C67915, 0xC67178F2E372532B,
   0xCA273ECEEA26619C, 0xD186B8C721C0C207, 0xEADA7DD6CDE0EB1E, 0xF57D4F7FEE6ED178,
   0x06F067AA72176FBA, 0x0A637DC5A2C898A6, 0x113F9804BEF90DAE, 0x1B710B35131C471B,
   0x28DB77F523047D84, 0x32CAAB7B40C72493, 0x3C9EBE0A15C9BEBC, 0x431D67C49C100D4C,
   0x4CC5D4BECB3E42B6, 0x597F299CFC657E2A, 0x5FCB6FAB3AD6FAEC, 0x6C44198C4A475817]

/-- `Ch(x, y, z)`. -/
def sha2Ch (x y z : Nat) : Nat := (x &&& y) ^^^ (not64 x &&& z)

/-- `Maj(x, y, z)`. -/
def sha2Maj (x y z : Nat) : Nat := (x &&& y) ^^^ (x &&& z) ^^^ (y &&& z)

/-- Big Sigma 0 for SHA-512. -/
def bsig0 (x : Nat) : Nat := rotr64 28 x ^^^ rotr64 34 x ^^^ rotr64 39 x

/-- Big Sigma 1 for SHA-512. -/
def bsig1 (x : Nat) : Nat := rotr64 14 x ^^^ rotr64 18 x ^^^ rotr64 41 x

/-- Small sigma 0 for SHA-512. -/
def ssig0 (x : Nat) : Nat := rotr64 1 x ^^^ rotr64 8 x ^^^ (x >>> 7)

/-- Small sigma 1 for SHA-512. -/
def ssig1 (x : Nat) : Nat := rotr64 19 x ^^^ rotr64 61 x ^^^ (x >>> 6)

/-- Big-endian serialization of `x` to `n` bytes. -/
def beBytes : Nat → Nat → List Nat
  | 0, _ => []
  | n + 1, x => beBytes n (x / 256) ++ [x % 256]

/-- Big-endian interpretation of a byte list as a word. -/
def bytesToWord (bs : List Nat) : Nat := bs.foldl (fun a b => a * 256 + b) 0

/-- Group a byte list into big-endian 64-bit words (the input length is a
multiple of 8 after padding). -/
def toWords64 : List Nat → List Nat
  | b0 :: b1 :: b2 :: b3 :: b4 :: b5 :: b6 :: b7 :: rest =>
      bytesToWord [b0, b1, b2, b3, b4, b5, b6, b7] :: toWords64 rest
  | _ => []

/-- Group a word list into 16-word message blocks. -/
def toBlocks16 : List Nat → List (List Nat)
  | w0 :: w1 :: w2 :: w3 :: w4 :: w5 :: w6 :: w7 :: w8 :: w9 :: w10 :: w11 :: w12 :: w13 ::
      w14 :: w15 :: rest =>
      [w0, w1, w2, w3, w4, w5, w6, w7, w8, w9, w10, w11, w12, w13, w14, w15] ::
        toBlocks16 rest
  | _ => []

/-- SHA-512 message padding: append `0x80`, zero bytes, and the 128-bit
big-endian bit length, reaching a multiple of 128 bytes. -/
def padMessage (msg : List Nat) : List Nat :=
  let len := msg.length
  let zeros := (240 - (len + 1) % 128) % 128
  msg ++ [0x80] ++ List.replicate zeros 0 ++ beBytes 16 (len * 8)

/-- Extend the (reversed) message schedule by `n` further words. -/
def extendW : Nat → List Nat → List Nat
  | 0, rw => rw
  | n + 1, rw =>
      extendW n
        (add64 (add64 (ssig1 (rw.getD 1 0)) (rw.getD 6 0))
          (add64 (ssig0 (rw.getD 14 0)) (rw.getD 15 0)) :: rw)

/-- One SHA-512 compression round on the eight-word working state. -/
def compressRound (s : List Nat) (kw : Nat × Nat) : List Nat :=
  let a := s.getD 0 0
  let b := s.getD 1 0
  let c := s.getD 2 0
  let d := s.getD 3 0
  let e := s.getD 4 0
  let f := s.getD 5 0
  let g := s.getD 6 0
  let h := s.getD 7 0
  let t1 := add64 h (add64 (bsig1 e) (add64 (sha2Ch e f g) (add64 kw.1 kw.2)))
  let t2 := add64 (bsig0 a) (sha2Maj a b c)
  [add64 t1 t2, a, b, c, add64 d t1, e, f, g]

/-- Process one 16-word message block. -/
def compressBlock (st : List Nat) (block : List Nat) : List Nat :=
  let ws := (extendW 64 block.reverse).reverse
  let s := (K512.zip ws).foldl compressRound st
  List.zipWith add64 st s

/-- SHA-512 of a byte list. -/
def sha512 (msg : List Nat) : List Nat :=
  let final := (toBlocks16 (toWords64 (padMessage msg))).foldl compressBlock H512
  (final.map (beBytes 8)).flatten

/-- HMAC-SHA512 (FIPS 198-1) of a message under a key, both byte lists. -/
def hmacSha512 (key msg : List Nat) : List Nat :=
  let k0 := if key.length > 128 then sha512 key else key
  let kp := k0 ++ List.replicate (128 - k0.length) 0
  let ipad := kp.map (fun b => b ^^^ 0x36)
  let opad := kp.map (fun b => b ^^^ 0x5c)
  sha512 (opad ++ sha512 (ipad ++ msg))

/-- UTF-8 bytes of a string. -/
def strBytes (s : String) : List Nat := utf8Encode s.data

/-- Base64 encoding of a byte list as a string. -/
def b64EncodeStr (bs : List Nat) : String := String.mk (b64Encode bs)

/-! Percent encoders used by `URLSearchParams.toString()` (form-urlencoded
serialization) and by `encodeURIComponent`. -/
/-- Uppercase hexadecimal digit. -/
def hexUpper (n : Nat) : Char := if n < 10 then Char.ofNat (48 + n) else Char.ofNat (55 + n)

/-- Lowercase hexadecimal digit. -/
def hexLower (n : Nat) : Char := if n < 10 then Char.ofNat (48 + n) else Char.ofNat (87 + n)

/-- Percent-escape of one byte. -/
def pctByte (b : Nat) : List Char := ['%', hexUpper (b / 16), hexUpper (b % 16)]

/-- Characters serialized verbatim by `URLSearchParams.toString()`. -/
def isFormSafe (c : Char) : Bool :=
  (48 ≤ c.toNat && c.toNat ≤ 57) || (65 ≤ c.toNat && c.toNat ≤ 90) ||
    (97 ≤ c.toNat && c.toNat ≤ 122) || c = '*' || c = '-' || c = '.' || c = '_'

/-- Form-urlencoded serialization of a single character. -/
def formEncodeChar (c : Char) : List Char :=
  if isFormSafe c then [c]
  else if c = ' ' then ['+']
  else ((utf8EncodeChar c).map pctByte).flatten

/-- Form-urlencoded serialization of a string. -/
def formEncodeStr (s : String) : String := String.mk ((s.data.map formEncodeChar).flatten)

/-- Serialization of a parameter list as `URLSearchParams.toString()`
produces it. -/
def formUrlEncode (ps : List (String × String)) : String :=
  String.intercalate "&" (ps.map (fun p => formEncodeStr p.1 ++ "=" ++ formEncodeStr p.2))

/-- Characters serialized verbatim by `encodeURIComponent`. -/
def isUriComponentSafe (c : Char) : Bool :=
  (48 ≤ c.toNat && c.toNat ≤ 57) || (65 ≤ c.toNat && c.toNat ≤ 90) ||
    (97 ≤ c.toNat && c.toNat ≤ 122) || c = '-' || c = '_' || c = '.' || c = '!' ||
    c = '~' || c = '*' || c = Char.ofNat 39 || c = '(' || c = ')'

/-- The `encodeURIComponent` builtin. -/
def encodeURIComponent (s : String) : String :=
  String.mk
    ((s.data.map fun c =>
      if isUriComponentSafe c then [c] else ((utf8EncodeChar c).map pctByte).flatten).flatten)

/-! JSON string escaping as performed by `JSON.stringify`. -/
/-- Escape of one character inside a JSON string literal, as
`JSON.stringify` emits it. -/
def jsonEscapeChar (c : Char) : List Char :=
  if c = '"' then ['\\', '"']
  else if c = '\\' then ['\\', '\\']
  else if c.toNat = 8 then ['\\', 'b']
  else if c.toNat = 9 then ['\\', 't']
  else if c.toNat = 10 then ['\\', 'n']
  else if c.toNat = 12 then ['\\', 'f']
  else if c.toNat = 13 then ['\\', 'r']
  else if c.toNat < 32 then ['\\', 'u', '0', '0', hexLower (c.toNat / 16), hexLower (c.toNat % 16)]
  else [c]

/-- A JSON string literal for `s`, with `JSON.stringify` escaping. -/
def jsonQuote (s : String) : String :=
  "\"" ++ String.mk ((s.data.map jsonEscapeChar).flatten) ++ "\""

/-! A JSON subset modelling `JSON.parse` / `JSON.stringify` as the
handlers use them.  Numbers are restricted to (signed) integers -- the
only numbers the delegation encoder emits (`Date.now()`); fractional and
exponent literals are outside the states this development quantifies
over. -/
/-- JSON values. -/
inductive Json where
  | str (s : String)
  | num (n : Int)
  | obj (kvs : List (String × Json))
  | arr (xs : List Json)
  | jbool (b : Bool)
  | jnull
deriving Repr

/-- Decimal digit test. -/
def isDigitCh (c : Char) : Bool := 48 ≤ c.toNat && c.toNat ≤ 57

/-- JSON whitespace test. -/
def isWsCh (c : Char) : Bool :=
  c = ' ' || c = Char.ofNat 9 || c = Char.ofNat 10 || c = Char.ofNat 13

/-- Drop leading JSON whitespace. -/
def skipWs : List Char → List Char
  | [] => []
  | c :: rest => if isWsCh c then skipWs rest else c :: rest

/-- Hexadecimal digit value. -/
def hexVal (c : Char) : Option Nat :=
  if 48 ≤ c.toNat ∧ c.toNat ≤ 57 then some (c.toNat - 48)
  else if 97 ≤ c.toNat ∧ c.toNat ≤ 102 then some (c.toNat - 97 + 10)
  else if 65 ≤ c.toNat ∧ c.toNat ≤ 70 then some (c.toNat - 65 + 10)
  else none

/-- Split the longest leading run of decimal digits. -/
def takeDigits : List Char → List Char × List Char
  | [] => ([], [])
  | c :: rest =>
      if isDigitCh c then
        ((takeDigits rest).1.cons c, (takeDigits rest).2)
      else ([], c :: rest)

/-- Numeric value of a big-endian digit list. -/
def digitsVal (ds : List Char) : Nat := ds.foldl (fun a c => a * 10 + (c.toNat - 48)) 0

/-- Parse the body of a JSON string literal (the opening quote already
consumed), returning the decoded characters and the remaining input.
Fuel counts produced characters; escaped lone surrogates, which Lean
characters cannot represent, decode to the replacement character. -/
def parseStrBodyF : Nat → List Char → Option (List Char × List Char)
  | 0, _ => none
  | _ + 1, [] => none
  | fuel + 1, c :: rest =>
    if c = '"' then some ([], rest)
    else if c = '\\' then
      match rest with
      | [] => none
      | e :: rest2 =>
        if e = '"' then (parseStrBodyF fuel rest2).map (fun p => (p.1.cons '"', p.2))
        else if e = '\\' then (parseStrBodyF fuel rest2).map (fun p => (p.1.cons '\\', p.2))
        else if e = '/' then (parseStrBodyF fuel rest2).map (fun p => (p.1.cons '/', p.2))
        else if e = 'b' then
          (parseStrBodyF fuel rest2).map (fun p => (p.1.cons (Char.ofNat 8), p.2))
        else if e = 'f' then
          (parseStrBodyF fuel rest2).map (fun p => (p.1.cons (Char.ofNat 12), p.2))
        else if e = 'n' then
          (parseStrBodyF fuel rest2).map (fun p => (p.1.cons (Char.ofNat 10), p.2))
        else if e = 'r' then
          (parseStrBodyF fuel rest2).map (fun p => (p.1.cons (Char.ofNat 13), p.2))
        else if e = 't' then
          (parseStrBodyF fuel rest2).map (fun p => (p.1.cons (Char.ofNat 9), p.2))
        else if e = 'u' then
          match rest2 with
          | h1 :: h2 :: h3 :: h4 :: rest3 =>
            match hexVal h1, hexVal h2, hexVal h3, hexVal h4 with
            | some v1, some v2, some v3, some v4 =>
                let code := v1 * 4096 + v2 * 256 + v3 * 16 + v4
                let ch := if 55296 ≤ code ∧ code < 57344 then replChar else Char.ofNat code
                (parseStrBodyF fuel rest3).map (fun p => (p.1.cons ch, p.2))
            | _, _, _, _ => none
          | _ => none
        else none
    else if c.toNat < 32 then none
    else (parseStrBodyF fuel rest).map (fun p => (p.1.cons c, p.2))

/-- String-literal body parsing at its natural fuel (each produced
character consumes at least one input character, so the input length plus
one always suffices). -/
def parseStrBody (bs : List Char) : Option (List Char × List Char) :=
  parseStrBodyF (bs.length + 1) bs

mutual

/-- Parse one JSON value (leading whitespace allowed), with fuel bounding
the nesting depth. -/
def parseJsonF : Nat → List Char → Option (Json × List Char)
  | 0, _ => none
  | fuel + 1, cs =>
    match skipWs cs with
    | [] => none
    | c :: rest =>
      if c = '"' then
        (parseStrBody rest).map (fun p => (Json.str (String.mk p.1), p.2))
      else if c = '{' then
        match skipWs rest with
        | '}' :: rest2 => some (Json.obj [], rest2)
        | cs2 => (parseMembersF fuel cs2).map (fun p => (Json.obj p.1, p.2))
      else if c = '[' then
        match skipWs rest with
        | ']' :: rest2 => some (Json.arr [], rest2)
        | cs2 => (parseItemsF fuel cs2).map (fun p => (Json.arr p.1, p.2))
      else if c = 't' then
        match rest with
        | 'r' :: 'u' :: 'e' :: rest2 => some (Json.jbool true, rest2)
        | _ => none
      else if c = 'f' then
        match rest with
        | 'a' :: 'l' :: 's' :: 'e' :: rest2 => some (Json.jbool false, rest2)
        | _ => none
      else if c = 'n' then
        match rest with
        | 'u' :: 'l' :: 'l' :: rest2 => some (Json.jnull, rest2)
        | _ => none
      else if c = '-' then
        match takeDigits rest with
        | ([], _) => none
        | (ds, rest2) => some (Json.num (-(digitsVal ds : Int)), rest2)
      else if isDigitCh c then
        match takeDigits (c :: rest) with
        | ([], _) => none
        | (ds, rest2) => some (Json.num (digitsVal ds : Int), rest2)
      else none

/-- Parse the members of a JSON object after its opening brace (at least
one member; the empty object is handled by the caller). -/
def parseMembersF : Nat → List Char → Option (List (String × Json) × List Char)
  | 0, _ => none
  | fuel + 1, cs =>
    match skipWs cs with
    | '"' :: rest =>
      match parseStrBody rest with
      | none => none
      | some (key, rest2) =>
        match skipWs rest2 with
        | ':' :: rest3 =>
          match parseJsonF fuel rest3 with
          | none => none
          | some (v, rest4) =>
            match skipWs rest4 with
            | ',' :: rest5 =>
                (parseMembersF fuel rest5).map
                  (fun p => ((String.mk key, v) :: p.1, p.2))
            | '}' :: rest5 => some ([(String.mk key, v)], rest5)
            | _ => none
        | _ => none
    | _ => none

/-- Parse the items of a JSON array after its opening bracket (at least
one item; the empty array is handled by the caller). -/
def parseItemsF : Nat → List Char → Option (List Json × List Char)
  | 0, _ => none
  | fuel + 1, cs =>
    match parseJsonF fuel cs with
    | none => none
    | some (v, rest) =>
      match skipWs rest with
      | ',' :: rest2 => (parseItemsF fuel rest2).map (fun p => (v :: p.1, p.2))
      | ']' :: rest2 => some ([v], rest2)
      | _ => none

end

/-- `JSON.parse`: parse one value and require only whitespace after it. -/
def parseJson (s : String) : Option Json :=
  match parseJsonF (s.data.length + 8) s.data with
  | some (v, rest) => if skipWs rest = [] then some v else none
  | none => none

/-- Property access `obj[k]` on a parsed JSON value: `undefined` (`none`)
on non-objects and absent keys; for duplicate keys the last occurrence
wins, as in `JSON.parse`. -/
def jsonGet (j : Json) (k : String) : Option Json :=
  match j with
  | .obj kvs => (kvs.reverse.find? (fun p => p.1 == k)).map (fun p => p.2)
  | _ => none

/-- `JSON.stringify` of a scalar member value (the only value shapes the
delegation encoder produces). -/
def printScalar : Json → String
  | .str s => jsonQuote s
  | .num n => String.mk (intDec n)
  | _ => ""

/-- One `key:value` member as `JSON.stringify` prints it. -/
def printMember (k : String) (v : Json) : String :=
  jsonQuote k ++ ":" ++ printScalar v

/-- Comma-joined members as `JSON.stringify` prints them. -/
def printMembers : List (String × Json) → String
  | [] => ""
  | [kv] => printMember kv.1 kv.2
  | kv :: rest => printMember kv.1 kv.2 ++ "," ++ printMembers rest

/-! The delegation endpoint (`delegation/index.js`). -/
/-- The endpoint record assembled by `shared/oidc-helper.js`; fields can be
`undefined` when discovery documents omit them. -/
structure Endpoints where
  authorization_endpoint : Option String
  token_endpoint : Option String
  userinfo_endpoint : Option String
  end_session_endpoint : Option String
  issuer : Option String
deriving DecidableEq, Repr

/-- The OIDC configuration record returned by `getOidcConfiguration`. -/
structure OidcConfig where
  issuer : String
  clientId : String
  clientSecret : String
  redirectUri : String
  endpoints : Endpoints
deriving DecidableEq, Repr

/-- The HTTP response the handlers place in `context.res` (the fields that
occur in the source: status, an error body with optional details, and a
redirect location header). -/
structure HttpResponse where
  status : Nat
  error : Option String
  details : Option String
  location : Option String
deriving DecidableEq, Repr

/-- Query parameters of a delegation request. -/
structure DelegationRequest where
  operation : Option String
  userId : Option String
  salt : Option String
  returnUrl : Option String
  sig : Option String
deriving DecidableEq, Repr

/-- Environment of the delegation function. -/
structure DelegationEnv where
  apimValidationKey : Option String
deriving DecidableEq, Repr

/-- The canonical string to sign selected by the `switch (operation)` in
`validateApimSignature`; `none` is the `default` branch. -/
def canonicalStringFor (operation salt returnUrl userId : Option String) : Option String :=
  if operation = some "SignIn" ∨ operation = some "SignUp" then
    some (jsStr salt ++ "\n" ++ jsStr returnUrl)
  else if operation = some "ChangePassword" ∨ operation = some "ChangeProfile" ∨
      operation = some "CloseAccount" ∨ operation = some "SignOut" then
    some (jsStr salt ++ "\n" ++ jsStr userId)
  else none

/-- The signature the source computes: base64 of HMAC-SHA512 with the
base64-decoded key over the UTF-8 bytes of the canonical string. -/
def ApimSig (key msg : String) : String :=
  b64EncodeStr (hmacSha512 (b64Decode key.data) (strBytes msg))

/-- `validateApimSignature` from `delegation/index.js`. -/
def validateApimSignature (env : DelegationEnv) (operation salt returnUrl userId
    signature : Option String) : Bool :=
  if jsFalsy env.apimValidationKey || jsFalsy signature then false
  else
    match canonicalStringFor operation salt returnUrl userId with
    | none => false
    | some s => ApimSig (jsStr env.apimValidationKey) s == jsStr signature

/-- The member list of the `stateData` object built by the SignIn branch
(`JSON.stringify` omits fields whose value is `undefined`, and preserves
the insertion order returnUrl, salt, userId, timestamp). -/
def stateFields (returnUrl salt userId : Option String) (timestamp : Int) :
    List (String × Json) :=
  (match returnUrl with
    | some r => [("returnUrl", Json.str r)]
    | none => []) ++
  (match salt with
    | some s => [("salt", Json.str s)]
    | none => []) ++
  (match userId with
    | some u => [("userId", Json.str u)]
    | none => []) ++
  [("timestamp", Json.num timestamp)]

/-- The JSON serialization of the `stateData` object built by the SignIn
branch. -/
def printStateData (returnUrl salt userId : Option String) (timestamp : Int) : String :=
  "\x7b" ++ printMembers (stateFields returnUrl salt userId timestamp) ++ "\x7d"

/-- `buildAuthorizationUrl` from `shared/oidc-helper.js` at the default
scope list. -/
def buildAuthorizationUrl (cfg : OidcConfig) (state : String) : String :=
  jsStr cfg.endpoints.authorization_endpoint ++ "?" ++
    formUrlEncode
      [("client_id", cfg.clientId), ("response_type", "code"),
       ("scope", "openid profile email"), ("redirect_uri", cfg.redirectUri),
       ("state", state)]

/-- The delegation handler (`module.exports` of `delegation/index.js`):
`oidc` is the outcome of the awaited `getOidcConfiguration` call and `now`
is `Date.now()`. -/
def delegationHandler (env : DelegationEnv) (req : DelegationRequest)
    (oidc : Except String OidcConfig) (now : Int) : HttpResponse :=
  if ¬ validateApimSignature env req.operation req.salt req.returnUrl req.userId req.sig then
    { status := 401, error := some "Invalid signature", details := none, location := none }
  else if req.operation = some "SignIn" then
    match oidc with
    | .error _ =>
        { status := 500, error := some "Server configuration error", details := none,
          location := none }
    | .ok cfg =>
        let stateData := printStateData req.returnUrl req.salt req.userId now
        let encodedState := b64EncodeStr (strBytes stateData)
        { status := 302, error := none, details := none,
          location := some (buildAuthorizationUrl cfg encodedState) }
  else
    { status := 400, error := some "Unsupported operation", details := none, location := none }

/-- Two strings of equal length that differ in exactly one position. -/
def SingleCharDiff (s t : String) : Prop :=
  s.data.length = t.data.length ∧
    (List.zip s.data t.data).countP (fun p => decide (p.1 ≠ p.2)) = 1

instance (s t : String) : Decidable (SingleCharDiff s t) := by
  unfold SingleCharDiff
  infer_instance

/-- Concrete validation key used in witnesses (base64 of
"test-validation-key"). -/
def tKey : String := "dGVzdC12YWxpZGF0aW9uLWtleQ=="

/-- Concrete delegation environment used in witnesses. -/
def tEnv : DelegationEnv := ⟨some tKey⟩

/-- The correct signature for a SignIn request with salt "test-salt" and
returnUrl "/test" under `tKey`. -/
def tSigIn : String :=
  "WHtZx98DVFf/fLg3609MGMSaxwBw4wJM8D9AOdAN2gkIRvj4PPCDcfXQtqajrXqwgpXy/8+sqrLYkD/vG+hRDA=="

/-- The correct signature for a SignOut request with salt "test-salt" and
userId "test-user@example.com" under `tKey`. -/
def tSigOut : String :=
  "Wz5VVsrTlvReCTKpkJTnoHHGwQttjwtMqI65RTopvy4q8pHzzJvz/rmPhMc5QH1iS3wjKZlHKXDI0MsEYx/q/A=="

/-! The OIDC discovery provider (`shared/oidc-helper.js`). -/
/-- One entry of the module-level `discoveryCache` map: the endpoint set
and the `Date.now()` at which it was stored. -/
structure CacheEntry where
  endpoints : Endpoints
  timestamp : Int
deriving DecidableEq, Repr

/-- The discovery cache (`new Map()` keyed by issuer), as an association
list. -/
abbrev DiscoveryCache := List (String × CacheEntry)

/-- `discoveryCache.get(key)`. -/
def cacheGet (cache : DiscoveryCache) (k : String) : Option CacheEntry :=
  match cache.find? (fun p => p.1 == k) with
  | some p => some p.2
  | none => none

/-- `discoveryCache.set(key, value)`. -/
def cacheSet (cache : DiscoveryCache) (k : String) (v : CacheEntry) : DiscoveryCache :=
  match cache with
  | [] => [(k, v)]
  | p :: rest => if p.1 == k then (k, v) :: rest else p :: cacheSet rest k v

/-- `CACHE_TTL` (one hour in milliseconds). -/
def CACHE_TTL : Int := 3600000

/-- The environment variables consulted by the fallback branch of
`discoverOidcEndpoints`. -/
structure OidcPathEnv where
  authorizationEndpoint : Option String
  tokenEndpoint : Option String
  userinfoEndpoint : Option String
  endSessionEndpoint : Option String
deriving DecidableEq, Repr

/-- JavaScript `value || default` for an environment string (empty string
is falsy). -/
def jsOrDefault (v : Option String) (d : String) : String :=
  match v with
  | some s => if s = "" then d else s
  | none => d

/-- The parsed discovery document; absent JSON fields are `none`. -/
structure DiscoveryDoc where
  authorization_endpoint : Option String
  token_endpoint : Option String
  userinfo_endpoint : Option String
  end_session_endpoint : Option String
  issuer : Option String
deriving DecidableEq, Repr

/-- The endpoint record extracted from a discovery document. -/
def extractEndpoints (doc : DiscoveryDoc) : Endpoints :=
  { authorization_endpoint := doc.authorization_endpoint,
    token_endpoint := doc.token_endpoint,
    userinfo_endpoint := doc.userinfo_endpoint,
    end_session_endpoint := doc.end_session_endpoint,
    issuer := doc.issuer }

/-- The fallback endpoint set built in the catch branch: the issuer
concatenated with the configured path suffixes; the first three default to
conventional paths, the end-session suffix has no default and yields an
absent endpoint when unset. -/
def fallbackEndpoints (env : OidcPathEnv) (issuer : String) : Endpoints :=
  { authorization_endpoint :=
      some (issuer ++ jsOrDefault env.authorizationEndpoint "/oauth2/authorize"),
    token_endpoint := some (issuer ++ jsOrDefault env.tokenEndpoint "/oauth2/token"),
    userinfo_endpoint := some (issuer ++ jsOrDefault env.userinfoEndpoint "/oauth2/userinfo"),
    end_session_endpoint :=
      if jsFalsy env.endSessionEndpoint then none
      else some (issuer ++ jsStr env.endSessionEndpoint),
    issuer := some issuer }

/-- Result of one `discoverOidcEndpoints` call: the returned endpoint set,
the cache afterwards, and whether a network fetch was issued. -/
structure DiscoveryResult where
  endpoints : Endpoints
  cache : DiscoveryCache
  fetched : Bool
deriving DecidableEq, Repr

/-- The fetch path of `discoverOidcEndpoints`: `fetchResult` is the
outcome of `httpsGet` on the well-known URL (`error` covers non-2xx
status, network error, malformed JSON and empty body, all of which reject
the promise); success stores the extracted endpoints in the cache, failure
returns the fallback set without caching it. -/
def discoverFetch (cache : DiscoveryCache) (env : OidcPathEnv) (now : Int)
    (fetchResult : Except String DiscoveryDoc) (issuer : String) : DiscoveryResult :=
  match fetchResult with
  | .ok doc =>
      { endpoints := extractEndpoints doc,
        cache := cacheSet cache issuer ⟨extractEndpoints doc, now⟩, fetched := true }
  | .error _ =>
      { endpoints := fallbackEndpoints env issuer, cache := cache, fetched := true }

/-- `discoverOidcEndpoints` from `shared/oidc-helper.js`: return a cached
entry if its age is strictly below the TTL, otherwise fetch (or fall
back). -/
def discoverOidcEndpoints (cache : DiscoveryCache) (env : OidcPathEnv) (now : Int)
    (fetchResult : Except String DiscoveryDoc) (issuer : String) : DiscoveryResult :=
  match cacheGet cache issuer with
  | some cached =>
      if now - cached.timestamp < CACHE_TTL then
        { endpoints := cached.endpoints, cache := cache, fetched := false }
      else discoverFetch cache env now fetchResult issuer
  | none => discoverFetch cache env now fetchResult issuer

/-! The gateway-safe user identifier derivation
(`userData.email.replace('@', '_').replace(/\./g, '_')` in
`auth-callback/index.js`). -/
/-- JavaScript `String.prototype.replace` with a one-character string
pattern: only the first occurrence is replaced. -/
def replaceFirstChar : List Char → Char → Char → List Char
  | [], _, _ => []
  | c :: rest, t, r => if c = t then r :: rest else c :: replaceFirstChar rest t r

/-- JavaScript `String.prototype.replace` with a global one-character
regular expression: every occurrence is replaced. -/
def replaceAllChar : List Char → Char → Char → List Char
  | [], _, _ => []
  | c :: rest, t, r => (if c = t then r else c) :: replaceAllChar rest t r

/-- The `apimUserId` derivation from the callback handler: replace the
first "@" and every "." with "_". -/
def apimUserId (email : String) : String :=
  String.mk (replaceAllChar (replaceFirstChar email.data '@' '_') '.' '_')

/-- Index of the first occurrence of a character. -/
def firstAt : List Char → Char → Option Nat
  | [], _ => none
  | c :: rest, t => if c = t then some 0 else (firstAt rest t).map (· + 1)

/-! Round-trip of the OAuth state blob: `JSON.stringify` then base64 over
UTF-8 (delegation handler) against base64-decode, UTF-8 decode and
`JSON.parse` (callback handler). -/
/-- State decoding as the callback handler performs it:
`JSON.parse(Buffer.from(encodedState, 'base64').toString())`. -/
def decodeState (encodedState : String) : Option Json :=
  parseJson (String.mk (utf8Decode (b64Decode encodedState.data)))

/-- State encoding as the delegation handler performs it:
`Buffer.from(JSON.stringify(stateData)).toString('base64')`. -/
def encodeStateData (returnUrl salt userId : Option String) (timestamp : Int) : String :=
  b64EncodeStr (strBytes (printStateData returnUrl salt userId timestamp))

/-- The next input character, if any, is not a digit (so that greedy
number parsing stops exactly there). -/
def HeadNotDigit : List Char → Prop
  | [] => True
  | c :: _ => isDigitCh c = false

/-- A member value of the shapes the delegation encoder produces. -/
def IsScalarOk (j : Json) : Prop := (∃ s, j = Json.str s) ∨ (∃ n, j = Json.num n)

/-! The callback endpoint (`auth-callback/index.js`).  Network calls
(`getOidcConfiguration`, the token exchange, the userinfo fetch and the
two management-API calls) are oracles supplied in a `CallbackWorld`; the
handler also returns the list of calls it attempted, in order. -/
/-- Query parameters of a callback request. -/
structure CallbackRequest where
  code : Option String
  state : Option String
deriving DecidableEq, Repr

/-- Environment of the callback function (the variable the redirect logic
reads). -/
structure CallbackEnv where
  apimPortalUrl : Option String
deriving DecidableEq, Repr

/-- Outcomes of the awaited calls of one request, in source order. -/
structure CallbackWorld where
  now : Int
  nowIso : String
  oidcConfig : Except String OidcConfig
  tokenResponse : Except String Json
  userInfo : Except String Json
  createUser : Except String Unit
  ssoToken : Except String Json

/-- Property access expecting a string (the shapes the handler reads from
its JSON inputs; non-string claim values are outside the states this
development quantifies over). -/
def jsStrField (j : Json) (k : String) : Option String :=
  match jsonGet j k with
  | some (Json.str s) => some s
  | _ => none

/-- JavaScript string coercion of a possibly-absent JSON value, as
`URLSearchParams.set` and `encodeURIComponent` perform it. -/
def jsDisplay (v : Option Json) : String :=
  match v with
  | none => "undefined"
  | some (Json.str s) => s
  | some (Json.num n) => String.mk (intDec n)
  | some (Json.jbool b) => if b then "true" else "false"
  | some Json.jnull => "null"
  | some (Json.obj _) => "[object Object]"
  | some (Json.arr _) => ""

/-- JavaScript truthiness of a possibly-absent JSON value. -/
def jsTruthyJson (v : Option Json) : Bool :=
  match v with
  | none => false
  | some (Json.str s) => s ≠ ""
  | some (Json.num n) => n ≠ 0
  | some (Json.jbool b) => b
  | some Json.jnull => false
  | some (Json.obj _) => true
  | some (Json.arr _) => true

/-- JavaScript string whitespace (`StrWhiteSpaceChar`): tab, line
terminators, vertical tab, form feed, space, no-break space, the Unicode
space separators and the byte-order mark. -/
def isJsWsCh (c : Char) : Bool :=
  c.toNat = 9 || c.toNat = 10 || c.toNat = 11 || c.toNat = 12 || c.toNat = 13 ||
    c.toNat = 32 || c.toNat = 160 || c.toNat = 5760 ||
    (8192 ≤ c.toNat && c.toNat ≤ 8202) || c.toNat = 8232 || c.toNat = 8233 ||
    c.toNat = 8239 || c.toNat = 8287 || c.toNat = 12288 || c.toNat = 65279

/-- A JavaScript number as `ToNumber` yields it for the freshness
comparison: NaN, an infinity, or the exact decimal value `m * 10 ^ e`.
JavaScript rounds values to the nearest binary double; this exact-value
model agrees with the program on every comparison whose operands the
double format represents exactly, which covers all states this
development instantiates. -/
inductive JsNum where
  | nan
  | posInf
  | negInf
  | dec (m : Int) (e : Int)
deriving DecidableEq, Repr

/-- Digit-list value in radix `base` (`none` on an out-of-range digit). -/
def radixValAux (base : Nat) (acc : Nat) : List Char → Option Nat
  | [] => some acc
  | c :: rest =>
      match hexVal c with
      | some d => if d < base then radixValAux base (acc * base + d) rest else none
      | none => none

/-- A radix-prefixed integer literal body (`NonDecimalIntegerLiteral`
digits, which admit no sign, fraction or exponent). -/
def parseRadix (base : Nat) (rest : List Char) : JsNum :=
  if rest.isEmpty then JsNum.nan
  else
    match radixValAux base 0 rest with
    | some v => JsNum.dec (v : Int) 0
    | none => JsNum.nan

/-- Signed decimal digits filling the whole input. -/
def parseSignedDigits (cs : List Char) : Option Int :=
  match cs with
  | '+' :: rest =>
      if rest ≠ [] ∧ rest.all isDigitCh then some (digitsVal rest : Int) else none
  | '-' :: rest =>
      if rest ≠ [] ∧ rest.all isDigitCh then some (-(digitsVal rest : Int)) else none
  | rest => if rest ≠ [] ∧ rest.all isDigitCh then some (digitsVal rest : Int) else none

/-- `ExponentPart` of a decimal literal, filling the whole remaining
input; an absent part is exponent 0. -/
def parseExpPart : List Char → Option Int
  | [] => some 0
  | 'e' :: rest => parseSignedDigits rest
  | 'E' :: rest => parseSignedDigits rest
  | _ => none

/-- An unsigned decimal literal - digits with an optional fraction and
exponent, consuming the whole input - as a scaled value `(m, e)` standing
for `m * 10 ^ e`. -/
def parseUnsignedDec (cs : List Char) : Option (Nat × Int) :=
  match takeDigits cs with
  | (ip, '.' :: r2) =>
      match takeDigits r2 with
      | (fp, r3) =>
          if ip.isEmpty ∧ fp.isEmpty then none
          else
            (parseExpPart r3).map (fun ex =>
              (digitsVal ip * 10 ^ fp.length + digitsVal fp, ex - fp.length))
  | (ip, r1) =>
      if ip.isEmpty then none
      else (parseExpPart r1).map (fun ex => (digitsVal ip, ex))

/-- `StrUnsignedDecimalLiteral` with the sign already consumed:
`Infinity` or an unsigned decimal literal, else NaN. -/
def parseUnsignedLiteral (neg : Bool) (cs : List Char) : JsNum :=
  if cs = "Infinity".data then (if neg then JsNum.negInf else JsNum.posInf)
  else
    match parseUnsignedDec cs with
    | some (m, e) => JsNum.dec (if neg then -(m : Int) else (m : Int)) e
    | none => JsNum.nan

/-- `StrDecimalLiteral`: an optional sign, then an unsigned literal. -/
def parseDecLiteral : List Char → JsNum
  | '+' :: rest => parseUnsignedLiteral false rest
  | '-' :: rest => parseUnsignedLiteral true rest
  | cs => parseUnsignedLiteral false cs

/-- JavaScript `ToNumber` of a string (the `StringNumericLiteral`
grammar): trim string whitespace, an empty remainder is 0, a
`0x`/`0o`/`0b`-prefixed literal is an unsigned radix integer, anything
else is a signed decimal literal or NaN. -/
def strToNumber (s : String) : JsNum :=
  match ((s.data.dropWhile isJsWsCh).reverse.dropWhile isJsWsCh).reverse with
  | [] => JsNum.dec 0 0
  | '0' :: c :: rest =>
      if c = 'x' ∨ c = 'X' then parseRadix 16 rest
      else if c = 'o' ∨ c = 'O' then parseRadix 8 rest
      else if c = 'b' ∨ c = 'B' then parseRadix 2 rest
      else parseDecLiteral ('0' :: c :: rest)
  | core => parseDecLiteral core

mutual
/-- One array element as `Array.prototype.join` renders it for string
coercion: `null` joins as the empty string, nested arrays join
recursively, objects render as `[object Object]`. -/
def jsArrElemStr : Json → String
  | Json.str s => s
  | Json.num n => String.mk (intDec n)
  | Json.jbool b => if b then "true" else "false"
  | Json.jnull => ""
  | Json.obj _ => "[object Object]"
  | Json.arr xs => jsArrJoin xs
/-- `Array.prototype.join` with the default comma separator. -/
def jsArrJoin : List Json → String
  | [] => ""
  | [x] => jsArrElemStr x
  | x :: y :: rest => jsArrElemStr x ++ "," ++ jsArrJoin (y :: rest)
end

/-- JavaScript `ToNumber` of a possibly-absent JSON value: `undefined`
is NaN, strings follow the `StringNumericLiteral` grammar, booleans and
`null` are 0 or 1, a plain object stringifies to `[object Object]` and
is NaN, and an array coerces through its `join(',')` string. -/
def jsToNumber (v : Option Json) : JsNum :=
  match v with
  | none => JsNum.nan
  | some (Json.num n) => JsNum.dec n 0
  | some (Json.str s) => strToNumber s
  | some (Json.jbool b) => JsNum.dec (if b then 1 else 0) 0
  | some Json.jnull => JsNum.dec 0 0
  | some (Json.obj _) => JsNum.nan
  | some (Json.arr xs) => strToNumber (jsArrJoin xs)

/-- The freshness check `Date.now() - stateData.timestamp > 600000` under
`ToNumber` coercion: false on NaN and on +Infinity, true on -Infinity,
and for the exact value `m * 10 ^ e` the comparison
`now - 600000 > m * 10 ^ e`, cleared of the denominator when `e` is
negative. -/
def freshnessExpired (now : Int) (stateData : Json) : Bool :=
  match jsToNumber (jsonGet stateData "timestamp") with
  | JsNum.nan => false
  | JsNum.posInf => false
  | JsNum.negInf => true
  | JsNum.dec m e =>
      if 0 ≤ e then now - 600000 > m * 10 ^ e.toNat
      else (now - 600000) * 10 ^ (-e).toNat > m

/-- A 400 response with an error body. -/
def resp400 (msg : String) : HttpResponse :=
  { status := 400, error := some msg, details := none, location := none }

/-- A 302 redirect response. -/
def resp302 (loc : String) : HttpResponse :=
  { status := 302, error := none, details := none, location := some loc }

/-- The catch-all 500 response of the callback handler. -/
def respAuthFailed (details : String) : HttpResponse :=
  { status := 500, error := some "Authentication failed", details := some details,
    location := none }

/-- Does `p` lead `l`? -/
def startsOf : List Char → List Char → Bool
  | [], _ => true
  | _ :: _, [] => false
  | a :: p, b :: l => a = b && startsOf p l

/-- JavaScript `indexOf(sub) !== -1`. -/
def hasSub : List Char → List Char → Bool
  | [], sub => sub.isEmpty
  | c :: rest, sub => startsOf sub (c :: rest) || hasSub rest sub

/-- Substring containment on strings. -/
def strHasSub (s sub : String) : Bool := hasSub s.data sub.data

/-- Split a query string on a separator character. -/
def splitOnChar (c : Char) : List Char → List (List Char)
  | [] => [[]]
  | x :: rest =>
      if x = c then [] :: splitOnChar c rest
      else
        match splitOnChar c rest with
        | [] => [[x]]
        | g :: gs => (g.cons x) :: gs

/-- JavaScript `String.prototype.startsWith`. -/
def jsStartsWith (s p : String) : Bool := startsOf p.data s.data

/-- JavaScript `String.prototype.split` with a single-character
separator. -/
def jsSplitChar (c : Char) (s : String) : List String :=
  (splitOnChar c s.data).map String.mk

/-- The `userData` object assembled from the userinfo claims. -/
structure UserData where
  userId : Option String
  email : Option String
  firstName : String
  lastName : String
  registrationDate : String
  note : String
deriving DecidableEq, Repr

/-- JavaScript `a || b || ''` over truthiness. -/
def jsOrChain (a b : Option String) : String :=
  if jsFalsy a then (if jsFalsy b then "" else jsStr b) else jsStr a

/-- Build `userData` from the userinfo response
(`given_name || name?.split(' ')[0] || ''` and the analogous last name). -/
def mkUserData (ui : Json) (nowIso : String) : UserData :=
  { userId := jsStrField ui "sub",
    email := jsStrField ui "email",
    firstName := jsOrChain (jsStrField ui "given_name")
      ((jsStrField ui "name").map (fun n => (jsSplitChar ' ' n).headD "")),
    lastName := jsOrChain (jsStrField ui "family_name")
      ((jsStrField ui "name").map (fun n =>
        String.intercalate " " ((jsSplitChar ' ' n).drop 1))),
    registrationDate := nowIso,
    note := "User authenticated via Okta" }

/-- JavaScript `String.prototype.replace` with a string pattern: only the
first occurrence is replaced. -/
def replaceFirstSubAux : List Char → List Char → List Char → List Char
  | [], _, _ => []
  | c :: rest, pat, rep =>
      if startsOf pat (c :: rest) then rep ++ (c :: rest).drop pat.length
      else c :: replaceFirstSubAux rest pat rep

/-- String-level first-occurrence replacement. -/
def replaceFirstSub (s pat rep : String) : String :=
  String.mk (replaceFirstSubAux s.data pat.data rep.data)

/-! A WHATWG-style URL model sufficient for the redirect construction:
absolute `scheme://host/path?query` URLs and resolution of relative paths
against such a base.  URLs of special schemes written without `//` and
protocol-relative inputs are outside the states this development
quantifies over. -/
/-- A parsed URL. -/
structure JsUrl where
  scheme : String
  host : String
  pathname : String
  params : List (String × String)
deriving DecidableEq, Repr

/-- Split at the first occurrence of a character. -/
def splitAtChar (c : Char) : List Char → List Char × Option (List Char)
  | [] => ([], none)
  | x :: rest =>
      if x = c then ([], some rest)
      else
        ((splitAtChar c rest).1.cons x, (splitAtChar c rest).2)

/-- Decode one form-urlencoded token to bytes. -/
def formUrlDecodeBytes : List Char → List Nat
  | [] => []
  | '%' :: h1 :: h2 :: rest =>
      match hexVal h1, hexVal h2 with
      | some a, some b => (a * 16 + b) :: formUrlDecodeBytes rest
      | _, _ => utf8EncodeChar '%' ++ formUrlDecodeBytes (h1 :: h2 :: rest)
  | '+' :: rest => 32 :: formUrlDecodeBytes rest
  | c :: rest => utf8EncodeChar c ++ formUrlDecodeBytes rest

/-- Decode one form-urlencoded token to a string. -/
def formUrlDecodeStr (cs : List Char) : String := String.mk (utf8Decode (formUrlDecodeBytes cs))

/-- Parse a query string into decoded key-value pairs. -/
def parseParams (q : List Char) : List (String × String) :=
  ((splitOnChar '&' q).filter (fun g => ¬ g.isEmpty)).map (fun g =>
    match splitAtChar '=' g with
    | (k, none) => (formUrlDecodeStr k, "")
    | (k, some v) => (formUrlDecodeStr k, formUrlDecodeStr v))

/-- Characters ending the host component. -/
def isHostEnd (c : Char) : Bool := c = '/' || c = '?' || c = '#'

/-- Parse an absolute `scheme://host[/path][?query]` URL; anything else is
a thrown `Invalid URL`. -/
def parseUrlAbs (s : String) : Except String JsUrl :=
  match splitAtChar ':' s.data with
  | (_, none) => Except.error "Invalid URL"
  | (schemeCs, some rest) =>
      if schemeCs.isEmpty then Except.error "Invalid URL"
      else
        match rest with
        | '/' :: '/' :: rest2 =>
            match splitAtChar '?' rest2 with
            | (hp, q) =>
                let hostCs := hp.takeWhile (fun c => ¬ isHostEnd c)
                let pathCs := hp.drop hostCs.length
                if hostCs.isEmpty then Except.error "Invalid URL"
                else
                  Except.ok
                    { scheme := String.mk schemeCs, host := String.mk hostCs,
                      pathname := if pathCs.isEmpty then "/" else String.mk pathCs,
                      params :=
                        match q with
                        | none => []
                        | some qcs => parseParams qcs }
        | _ => Except.error "Invalid URL"

/-- The directory part of a path (up to and including the last slash). -/
def dirOf (p : String) : String :=
  String.mk ((p.data.reverse.dropWhile (fun c => ¬ c = '/')).reverse)

/-- Resolve a relative reference against a base URL, per
`new URL(relative, base)` for the path-style references the portal uses. -/
def resolveUrl (rel : String) (base : String) : Except String JsUrl :=
  match parseUrlAbs base with
  | Except.error e => Except.error e
  | Except.ok bu =>
      match rel.data with
      | '/' :: '/' :: _ => Except.error "Invalid URL"
      | relData =>
          match splitAtChar '?' relData with
          | (pathCs, q) =>
              let path :=
                if pathCs.isEmpty then bu.pathname
                else if pathCs.headD ' ' = '/' then String.mk pathCs
                else dirOf bu.pathname ++ String.mk pathCs
              Except.ok
                { scheme := bu.scheme, host := bu.host, pathname := path,
                  params :=
                    match q with
                    | none => []
                    | some qcs => parseParams qcs }

/-- Serialize a URL as `URL.prototype.toString` renders it after
`searchParams` manipulation. -/
def urlToString (u : JsUrl) : String :=
  u.scheme ++ "://" ++ u.host ++ u.pathname ++
    (if u.params.isEmpty then "" else "?" ++ formUrlEncode u.params)

/-- Drop every pair with the given key. -/
def paramsRemove : List (String × String) → String → List (String × String)
  | [], _ => []
  | p :: rest, k => if p.1 = k then paramsRemove rest k else p :: paramsRemove rest k

/-- `URLSearchParams.set`: replace the first occurrence, drop later ones,
append when absent. -/
def paramsSet : List (String × String) → String → String → List (String × String)
  | [], k, v => [(k, v)]
  | p :: rest, k, v =>
      if p.1 = k then (k, v) :: paramsRemove rest k
      else p :: paramsSet rest k v

/-- The userData query parameters appended in the fallback redirect (only
truthy values are set, in the object's insertion order). -/
def userDataParams (ps : List (String × String)) (u : UserData) : List (String × String) :=
  let p1 := if jsFalsy u.userId then ps else paramsSet ps "userId" (jsStr u.userId)
  let p2 := if jsFalsy u.email then p1 else paramsSet p1 "email" (jsStr u.email)
  let p3 := if u.firstName = "" then p2 else paramsSet p2 "firstName" u.firstName
  let p4 := if u.lastName = "" then p3 else paramsSet p3 "lastName" u.lastName
  let p5 :=
    if u.registrationDate = "" then p4 else paramsSet p4 "registrationDate" u.registrationDate
  if u.note = "" then p5 else paramsSet p5 "note" u.note

/-- The fallback redirect URL built in the catch branch of the
provisioning step: parse or resolve the stored returnUrl, append the
userData attributes and reattach the salt.  An `error` is a thrown
exception (propagating to the outer catch as a 500). -/
def fallbackRedirectUrl (env : CallbackEnv) (stateData : Json) (userData : UserData) :
    Except String String :=
  match jsStrField stateData "returnUrl" with
  | none => Except.error "Cannot read properties of undefined"
  | some ru =>
      match
        (if jsStartsWith ru "http" then parseUrlAbs ru
          else resolveUrl ru
            (jsOrDefault env.apimPortalUrl "https://afdevapi.developer.azure-api.net")) with
      | Except.error e => Except.error e
      | Except.ok u =>
          let ps := paramsSet (userDataParams u.params userData) "salt"
            (jsDisplay (jsonGet stateData "salt"))
          Except.ok (urlToString { u with params := ps })

/-- The provisioning branch (the inner `try` of the callback handler):
derive the gateway-safe user id, create or update the user, obtain the
SSO response and build the redirect.  An `error` is a thrown exception
caught by the inner `catch`. -/
def provisioningStep (env : CallbackEnv) (world : CallbackWorld) (stateData : Json)
    (userData : UserData) : Except String HttpResponse :=
  match userData.email with
  | none => Except.error "Cannot read properties of undefined (reading replace)"
  | some em =>
      let _uid := apimUserId em
      match world.createUser with
      | Except.error e => Except.error e
      | Except.ok _ =>
          match world.ssoToken with
          | Except.error e => Except.error e
          | Except.ok ssoJson =>
              let ssoResponse := jsonGet ssoJson "value"
              match ssoResponse with
              | some (Json.str sv) =>
                  if sv ≠ "" ∧ strHasSub sv "signin-sso" then
                    let s1 := replaceFirstSub sv ".portal.azure-api.net"
                      ".developer.azure-api.net"
                    let s2 :=
                      if strHasSub s1 "returnUrl=" then s1
                      else
                        s1 ++ (if strHasSub s1 "?" then "&" else "?") ++ "returnUrl=" ++
                          encodeURIComponent (jsDisplay (jsonGet stateData "returnUrl"))
                    Except.ok (resp302 s2)
                  else
                    Except.ok (resp302
                      (jsOrDefault env.apimPortalUrl "https://afdevapi.developer.azure-api.net" ++
                        "/signin-sso?token=" ++ encodeURIComponent sv ++ "&returnUrl=" ++
                        encodeURIComponent (jsDisplay (jsonGet stateData "returnUrl"))))
              | _ =>
                  Except.ok (resp302
                    (jsOrDefault env.apimPortalUrl "https://afdevapi.developer.azure-api.net" ++
                      "/signin-sso?token=" ++ encodeURIComponent (jsDisplay ssoResponse) ++
                      "&returnUrl=" ++
                      encodeURIComponent (jsDisplay (jsonGet stateData "returnUrl"))))

/-- The callback pipeline after the freshness check: configuration load,
token exchange, userinfo fetch, then the provisioning branch with its
fallback; any uncaught throw becomes the 500 Authentication failed
response. -/
def authCallbackAfterFreshness (env : CallbackEnv) (world : CallbackWorld)
    (stateData : Json) : HttpResponse × List String :=
  match world.oidcConfig with
  | Except.error _ =>
      ({ status := 500, error := some "Server configuration error", details := none,
         location := none }, ["oidcConfig"])
  | Except.ok _ =>
      match world.tokenResponse with
      | Except.error msg => (respAuthFailed msg, ["oidcConfig", "token"])
      | Except.ok tok =>
          if jsTruthyJson (jsonGet tok "error") then
            (respAuthFailed ("Token exchange failed: " ++
              jsDisplay (jsonGet tok "error_description")), ["oidcConfig", "token"])
          else
            match world.userInfo with
            | Except.error msg => (respAuthFailed msg, ["oidcConfig", "token", "userinfo"])
            | Except.ok ui =>
                let userData := mkUserData ui world.nowIso
                match provisioningStep env world stateData userData with
                | Except.ok resp => (resp, ["oidcConfig", "token", "userinfo", "apim"])
                | Except.error _ =>
                    match fallbackRedirectUrl env stateData userData with
                    | Except.ok loc =>
                        (resp302 loc, ["oidcConfig", "token", "userinfo", "apim"])
                    | Except.error msg =>
                        (respAuthFailed msg, ["oidcConfig", "token", "userinfo", "apim"])

/-- The callback handler (`module.exports` of `auth-callback/index.js`). -/
def authCallbackHandler (env : CallbackEnv) (req : CallbackRequest)
    (world : CallbackWorld) : HttpResponse × List String :=
  if jsFalsy req.code || jsFalsy req.state then
    (resp400 "Missing code or state parameter", [])
  else
    match decodeState (jsStr req.state) with
    | none => (resp400 "Invalid state parameter", [])
    | some stateData =>
        if freshnessExpired world.now stateData then
          (resp400 "State parameter expired", [])
        else authCallbackAfterFreshness env world stateData

/-- A portal environment with no APIM_PORTAL_URL set. -/
def cbEnvA : CallbackEnv := { apimPortalUrl := none }

/-- A callback world whose clock is past the freshness window of a
zero timestamp and whose network calls all fail. -/
def cbWorldA : CallbackWorld :=
  { now := 700001, nowIso := "2026-01-01T00:00:00.000Z",
    oidcConfig := Except.error "net", tokenResponse := Except.error "net",
    userInfo := Except.error "net", createUser := Except.error "net",
    ssoToken := Except.error "net" }

/-- A callback request with a well-formed state stamped at time 0. -/
def cbReqA : CallbackRequest :=
  { code := some "x",
    state := some (encodeStateData (some "/r") (some "s1") (some "u1") 0) }

/-- An OIDC configuration record for concrete callback runs. -/
def cfgB : OidcConfig :=
  { issuer := "https://id.example.com", clientId := "cid", clientSecret := "sec",
    redirectUri := "https://fn.example.com/api/auth-callback",
    endpoints :=
      { authorization_endpoint := some "https://id.example.com/oauth2/authorize",
        token_endpoint := some "https://id.example.com/oauth2/token",
        userinfo_endpoint := some "https://id.example.com/oauth2/userinfo",
        end_session_endpoint := none, issuer := some "https://id.example.com" } }

/-- A userinfo response with all four name claims. -/
def cbUiB : Json :=
  Json.obj [("sub", Json.str "okta123"), ("email", Json.str "a.b@x.com"),
    ("given_name", Json.str "Ann"), ("family_name", Json.str "Lee")]

/-- A callback world where token exchange and userinfo succeed but the
management-API user creation fails. -/
def cbWorldB : CallbackWorld :=
  { now := 0, nowIso := "2026-01-01T00:00:00.000Z",
    oidcConfig := Except.ok cfgB,
    tokenResponse := Except.ok (Json.obj [("access_token", Json.str "at")]),
    userInfo := Except.ok cbUiB, createUser := Except.error "HTTP 500: boom",
    ssoToken := Except.error "HTTP 500: boom" }

/-- A callback request whose state stores the relative return URL
`/dashboard`. -/
def cbReqB : CallbackRequest :=
  { code := some "x",
    state := some (encodeStateData (some "/dashboard") (some "s1") (some "u1") 0) }

/-- A callback request whose state stores the literal return URL `http`
(for which `new URL` throws). -/
def cbReqC : CallbackRequest :=
  { code := some "x",
    state := some (encodeStateData (some "http") (some "s1") (some "u1") 0) }

/-- A callback world whose clock is past the freshness window of a
zero timestamp. -/
def cbWorldD : CallbackWorld :=
  { now := 700000, nowIso := "2026-01-01T00:00:00.000Z",
    oidcConfig := Except.error "net", tokenResponse := Except.error "net",
    userInfo := Except.error "net", createUser := Except.error "net",
    ssoToken := Except.error "net" }

/-- A callback request whose decoded state carries the timestamp as the
JSON string "0" rather than a number. -/
def cbReqD : CallbackRequest :=
  { code := some "x",
    state := some (b64EncodeStr (strBytes
      "\x7b\"returnUrl\":\"/r\",\"salt\":\"s1\",\"userId\":\"u1\",\"timestamp\":\"0\"\x7d")) }

/-- A callback request whose decoded state has no timestamp field. -/
def cbReqE : CallbackRequest :=
  { code := some "x",
    state := some (b64EncodeStr (strBytes "\x7b\"returnUrl\":\"/r\",\"salt\":\"s1\"\x7d")) }

/-- A callback request whose decoded state carries the timestamp as the
fractional string "1.5". -/
def cbReqF : CallbackRequest :=
  { code := some "x",
    state := some (b64EncodeStr (strBytes
      "\x7b\"returnUrl\":\"/r\",\"salt\":\"s1\",\"timestamp\":\"1.5\"\x7d")) }

theorem b64Val_b64Char_all : ∀ n < 64, b64Val (b64Char n) = some n := by decide

theorem b64Val_b64Char {n : Nat} (h : n < 64) : b64Val (b64Char n) = some n :=
  b64Val_b64Char_all n h

theorem b64_roundtrip (bs : List Nat) (h : ∀ b ∈ bs, IsByte b) :
    b64Decode (b64Encode bs) = bs := by
  induction bs using b64Encode.induct with
  | case1 => rfl
  | case2 a =>
      have ha : a < 256 := h a (by simp)
      have h1 : a / 4 < 64 := by omega
      have h2 : a % 4 * 16 < 64 := by omega
      simp only [b64Encode, b64Decode, List.filterMap, b64Val_b64Char h1, b64Val_b64Char h2]
      have : b64Val '=' = none := by decide
      simp only [this, b64Regroup]
      congr 1
      omega
  | case3 a b =>
      have ha : a < 256 := h a (by simp)
      have hb : b < 256 := h b (by simp)
      have h1 : a / 4 < 64 := by omega
      have h2 : a % 4 * 16 + b / 16 < 64 := by omega
      have h3 : b % 16 * 4 < 64 := by omega
      simp only [b64Encode, b64Decode, List.filterMap, b64Val_b64Char h1, b64Val_b64Char h2,
        b64Val_b64Char h3]
      have : b64Val '=' = none := by decide
      simp only [this, b64Regroup]
      simp only [List.cons.injEq, and_true]
      constructor <;> omega
  | case4 a b c rest ih =>
      have ha : a < 256 := h a (by simp)
      have hb : b < 256 := h b (by simp)
      have hc : c < 256 := h c (by simp)
      have hrest : ∀ x ∈ rest, IsByte x := by
        intro x hx
        exact h x (by simp [hx])
      have h1 : a / 4 < 64 := by omega
      have h2 : a % 4 * 16 + b / 16 < 64 := by omega
      have h3 : b % 16 * 4 + c / 64 < 64 := by omega
      have h4 : c % 64 < 64 := by omega
      have ihv := ih hrest
      simp only [b64Encode, b64Decode, List.filterMap, b64Val_b64Char h1, b64Val_b64Char h2,
        b64Val_b64Char h3, b64Val_b64Char h4] at *
      simp only [b64Regroup]
      simp only [List.cons.injEq]
      refine ⟨by omega, by omega, by omega, ?_⟩
      exact ihv

theorem utf8EncodeChar_length_pos (c : Char) : 1 ≤ (utf8EncodeChar c).length := by
  simp only [utf8EncodeChar]
  split_ifs <;> simp

theorem char_toNat_valid (c : Char) :
    c.toNat < 55296 ∨ (57344 ≤ c.toNat ∧ c.toNat < 1114112) := by
  have h := c.valid
  rcases h with h | ⟨h1, h2⟩
  · left
    exact h
  · right
    exact ⟨h1, h2⟩

theorem utf8DecodeF_step (fuel : Nat) (c : Char) (tail : List Nat) :
    utf8DecodeF (fuel + 1) (utf8EncodeChar c ++ tail) = c :: utf8DecodeF fuel tail := by
  have hv := char_toNat_valid c
  have hofNat : Char.ofNat c.toNat = c := Char.ofNat_toNat c
  by_cases h1 : c.toNat < 128
  · have henc : utf8EncodeChar c ++ tail = c.toNat :: tail := by
      simp [utf8EncodeChar, h1]
    rw [henc]
    simp only [utf8DecodeF, if_pos h1, hofNat]
  · by_cases h2 : c.toNat < 2048
    · have henc : utf8EncodeChar c ++ tail =
          (192 + c.toNat / 64) :: (128 + c.toNat % 64) :: tail := by
        simp [utf8EncodeChar, h1, h2]
      rw [henc]
      simp only [utf8DecodeF]
      split_ifs <;> try omega
      all_goals
        have heq : (192 + c.toNat / 64 - 192) * 64 + (128 + c.toNat % 64 - 128) = c.toNat := by
          omega
        rw [heq, hofNat]
    · by_cases h3 : c.toNat < 65536
      · have henc : utf8EncodeChar c ++ tail =
            (224 + c.toNat / 4096) :: (128 + c.toNat / 64 % 64) :: (128 + c.toNat % 64) ::
              tail := by
          simp [utf8EncodeChar, h1, h2, h3]
        rw [henc]
        simp only [utf8DecodeF]
        split_ifs <;> try omega
        all_goals
          have heq : (224 + c.toNat / 4096 - 224) * 4096 +
              (128 + c.toNat / 64 % 64 - 128) * 64 + (128 + c.toNat % 64 - 128) = c.toNat := by
            omega
          rw [heq, hofNat]
      · have henc : utf8EncodeChar c ++ tail =
            (240 + c.toNat / 262144) :: (128 + c.toNat / 4096 % 64) ::
              (128 + c.toNat / 64 % 64) :: (128 + c.toNat % 64) :: tail := by
          simp [utf8EncodeChar, h1, h2, h3]
        rw [henc]
        simp only [utf8DecodeF]
        split_ifs <;> try omega
        all_goals
          have heq : (240 + c.toNat / 262144 - 240) * 262144 +
              (128 + c.toNat / 4096 % 64 - 128) * 4096 +
              (128 + c.toNat / 64 % 64 - 128) * 64 + (128 + c.toNat % 64 - 128) = c.toNat := by
            omega
          rw [heq, hofNat]

theorem utf8DecodeF_encode (cs : List Char) :
    ∀ fuel, cs.length ≤ fuel → utf8DecodeF fuel (utf8Encode cs) = cs := by
  induction cs with
  | nil =>
      intro fuel _
      cases fuel <;> rfl
  | cons c cs ih =>
      intro fuel hfuel
      cases fuel with
      | zero => simp at hfuel
      | succ f =>
          have : utf8Encode (c :: cs) = utf8EncodeChar c ++ utf8Encode cs := by
            simp [utf8Encode]
          rw [this, utf8DecodeF_step, ih f (by simpa using hfuel)]

theorem utf8Encode_length_ge (cs : List Char) : cs.length ≤ (utf8Encode cs).length := by
  induction cs with
  | nil => simp [utf8Encode]
  | cons c cs ih =>
      have : utf8Encode (c :: cs) = utf8EncodeChar c ++ utf8Encode cs := by simp [utf8Encode]
      rw [this]
      simp only [List.length_append, List.length_cons]
      have := utf8EncodeChar_length_pos c
      omega

theorem utf8_roundtrip (cs : List Char) : utf8Decode (utf8Encode cs) = cs :=
  utf8DecodeF_encode cs _ (utf8Encode_length_ge cs)

theorem validate_true_iff (key : String) (operation salt returnUrl userId : Option String)
    (sig : String) :
    validateApimSignature ⟨some key⟩ operation salt returnUrl userId (some sig) = true ↔
      key ≠ "" ∧ sig ≠ "" ∧
        ∃ s, canonicalStringFor operation salt returnUrl userId = some s ∧
          sig = ApimSig key s := by
  by_cases hk : key = ""
  · simp [validateApimSignature, jsFalsy, hk]
  · by_cases hs : sig = ""
    · simp [validateApimSignature, jsFalsy, hk, hs]
    · have hcond : (jsFalsy (some key) || jsFalsy (some sig)) = false := by
        simp [jsFalsy, hk, hs]
      cases hc : canonicalStringFor operation salt returnUrl userId with
      | none =>
          unfold validateApimSignature
          rw [hcond, hc]
          simp
      | some s =>
          unfold validateApimSignature
          rw [hcond, hc]
          simp only [Bool.false_eq_true, if_false, jsStr, beq_iff_eq]
          constructor
          · intro h
            exact ⟨hk, hs, s, rfl, h.symm⟩
          · rintro ⟨-, -, s2, hs2, h⟩
            cases hs2
            exact h.symm

theorem canonicalStringFor_group1 (op : String) (hop : op = "SignIn" ∨ op = "SignUp")
    (salt returnUrl userId : Option String) :
    canonicalStringFor (some op) salt returnUrl userId =
      some (jsStr salt ++ "\n" ++ jsStr returnUrl) := by
  rcases hop with rfl | rfl
  · unfold canonicalStringFor
    rw [if_pos (Or.inl rfl)]
  · unfold canonicalStringFor
    rw [if_pos (Or.inr rfl)]

theorem canonicalStringFor_group2 (op : String)
    (hop : op = "ChangePassword" ∨ op = "ChangeProfile" ∨ op = "CloseAccount" ∨ op = "SignOut")
    (salt returnUrl userId : Option String) :
    canonicalStringFor (some op) salt returnUrl userId =
      some (jsStr salt ++ "\n" ++ jsStr userId) := by
  rcases hop with rfl | rfl | rfl | rfl <;>
    · unfold canonicalStringFor
      rw [if_neg (by decide), if_pos (by decide)]

/-- C1: with the validation key present and a signature supplied, signature
validation succeeds exactly when the supplied signature equals
base64(HMAC-SHA512(base64-decoded key, UTF-8 of salt + newline + returnUrl))
for SignIn/SignUp, and the same with salt + newline + userId for
ChangePassword/ChangeProfile/CloseAccount/SignOut; changing the signature
makes validation fail, and a single-character change to salt, returnUrl or
userId makes validation fail whenever the mutated canonical string has a
distinct HMAC digest. -/
theorem apim_signature_hmac_characterization
    (key salt returnUrl userId sig : String) (hkey : key ≠ "") (hsig : sig ≠ "") :
    (∀ op : String, op = "SignIn" ∨ op = "SignUp" →
      (validateApimSignature ⟨some key⟩ (some op) (some salt) (some returnUrl)
          (some userId) (some sig) = true ↔
        sig = ApimSig key (salt ++ "\n" ++ returnUrl))) ∧
    (∀ op : String,
      op = "ChangePassword" ∨ op = "ChangeProfile" ∨ op = "CloseAccount" ∨ op = "SignOut" →
      (validateApimSignature ⟨some key⟩ (some op) (some salt) (some returnUrl)
          (some userId) (some sig) = true ↔
        sig = ApimSig key (salt ++ "\n" ++ userId))) ∧
    (∀ (operation : Option String) (sig2 : String), sig2 ≠ sig →
      validateApimSignature ⟨some key⟩ operation (some salt) (some returnUrl) (some userId)
          (some sig) = true →
      validateApimSignature ⟨some key⟩ operation (some salt) (some returnUrl) (some userId)
          (some sig2) = false) ∧
    (∀ op salt2 returnUrl2 : String, op = "SignIn" ∨ op = "SignUp" →
      (SingleCharDiff salt salt2 ∧ returnUrl2 = returnUrl ∨
        SingleCharDiff returnUrl returnUrl2 ∧ salt2 = salt) →
      ApimSig key (salt2 ++ "\n" ++ returnUrl2) ≠ ApimSig key (salt ++ "\n" ++ returnUrl) →
      validateApimSignature ⟨some key⟩ (some op) (some salt) (some returnUrl) (some userId)
          (some sig) = true →
      validateApimSignature ⟨some key⟩ (some op) (some salt2) (some returnUrl2) (some userId)
          (some sig) = false) ∧
    (∀ op salt2 userId2 : String,
      op = "ChangePassword" ∨ op = "ChangeProfile" ∨ op = "CloseAccount" ∨ op = "SignOut" →
      (SingleCharDiff salt salt2 ∧ userId2 = userId ∨
        SingleCharDiff userId userId2 ∧ salt2 = salt) →
      ApimSig key (salt2 ++ "\n" ++ userId2) ≠ ApimSig key (salt ++ "\n" ++ userId) →
      validateApimSignature ⟨some key⟩ (some op) (some salt) (some returnUrl) (some userId)
          (some sig) = true →
      validateApimSignature ⟨some key⟩ (some op) (some salt2) (some returnUrl) (some userId2)
          (some sig) = false) := by
  refine ⟨?_, ?_, ?_, ?_, ?_⟩
  · intro op hop
    rw [validate_true_iff, canonicalStringFor_group1 op hop]
    simp only [jsStr]
    constructor
    · rintro ⟨-, -, s2, hs2, h⟩
      cases hs2
      exact h
    · intro h
      exact ⟨hkey, hsig, _, rfl, h⟩
  · intro op hop
    rw [validate_true_iff, canonicalStringFor_group2 op hop]
    simp only [jsStr]
    constructor
    · rintro ⟨-, -, s2, hs2, h⟩
      cases hs2
      exact h
    · intro h
      exact ⟨hkey, hsig, _, rfl, h⟩
  · intro operation sig2 hne hval
    obtain ⟨-, -, s, hc, hsg⟩ := (validate_true_iff key operation (some salt) (some returnUrl)
      (some userId) sig).mp hval
    cases hv2 : validateApimSignature ⟨some key⟩ operation (some salt) (some returnUrl)
        (some userId) (some sig2) with
    | false => rfl
    | true =>
        exfalso
        obtain ⟨-, -, s2, hc2, hsg2⟩ := (validate_true_iff key operation (some salt)
          (some returnUrl) (some userId) sig2).mp hv2
        rw [hc] at hc2
        injection hc2 with hss
        subst hss
        exact hne (hsg2.trans hsg.symm)
  · intro op salt2 returnUrl2 hop _ hdiff hval
    obtain ⟨-, -, s, hc, hsg⟩ := (validate_true_iff key (some op) (some salt) (some returnUrl)
      (some userId) sig).mp hval
    rw [canonicalStringFor_group1 op hop] at hc
    simp only [jsStr] at hc
    injection hc with hcs
    cases hv2 : validateApimSignature ⟨some key⟩ (some op) (some salt2) (some returnUrl2)
        (some userId) (some sig) with
    | false => rfl
    | true =>
        exfalso
        obtain ⟨-, -, s2, hc2, hsg2⟩ := (validate_true_iff key (some op) (some salt2)
          (some returnUrl2) (some userId) sig).mp hv2
        rw [canonicalStringFor_group1 op hop] at hc2
        simp only [jsStr] at hc2
        injection hc2 with hcs2
        apply hdiff
        rw [hcs2, hcs]
        exact hsg2.symm.trans hsg
  · intro op salt2 userId2 hop _ hdiff hval
    obtain ⟨-, -, s, hc, hsg⟩ := (validate_true_iff key (some op) (some salt) (some returnUrl)
      (some userId) sig).mp hval
    rw [canonicalStringFor_group2 op hop] at hc
    simp only [jsStr] at hc
    injection hc with hcs
    cases hv2 : validateApimSignature ⟨some key⟩ (some op) (some salt2) (some returnUrl)
        (some userId2) (some sig) with
    | false => rfl
    | true =>
        exfalso
        obtain ⟨-, -, s2, hc2, hsg2⟩ := (validate_true_iff key (some op) (some salt2)
          (some returnUrl) (some userId2) sig).mp hv2
        rw [canonicalStringFor_group2 op hop] at hc2
        simp only [jsStr] at hc2
        injection hc2 with hcs2
        apply hdiff
        rw [hcs2, hcs]
        exact hsg2.symm.trans hsg

/-- Witness for C1 at concrete inputs: a correctly computed SignIn
signature validates, a different signature fails, a single-character salt
change fails, a correctly computed SignOut signature validates, and a
single-character userId change fails. -/
theorem apim_signature_hmac_characterization_witness :
    validateApimSignature tEnv (some "SignIn") (some "test-salt") (some "/test")
        (some "test-user@example.com") (some tSigIn) = true ∧
    validateApimSignature tEnv (some "SignIn") (some "test-salt") (some "/test")
        (some "test-user@example.com") (some "AAAA") = false ∧
    validateApimSignature tEnv (some "SignIn") (some "test-salu") (some "/test")
        (some "test-user@example.com") (some tSigIn) = false ∧
    validateApimSignature tEnv (some "SignOut") (some "test-salt") (some "/test")
        (some "test-user@example.com") (some tSigOut) = true ∧
    validateApimSignature tEnv (some "SignOut") (some "test-salt") (some "/test")
        (some "test-user@example.con") (some tSigOut) = false := by
  have h := apim_signature_hmac_characterization tKey "test-salt" "/test"
    "test-user@example.com" tSigIn (by decide) (by decide)
  have h2 := apim_signature_hmac_characterization tKey "test-salt" "/test"
    "test-user@example.com" tSigOut (by decide) (by decide)
  have hv1 : validateApimSignature tEnv (some "SignIn") (some "test-salt") (some "/test")
      (some "test-user@example.com") (some tSigIn) = true :=
    (h.1 "SignIn" (Or.inl rfl)).mpr (by decide)
  have hv4 : validateApimSignature tEnv (some "SignOut") (some "test-salt") (some "/test")
      (some "test-user@example.com") (some tSigOut) = true :=
    (h2.2.1 "SignOut" (Or.inr (Or.inr (Or.inr rfl)))).mpr (by decide)
  refine ⟨hv1, ?_, ?_, hv4, ?_⟩
  · exact h.2.2.1 (some "SignIn") "AAAA" (by decide) hv1
  · exact h.2.2.2.1 "SignIn" "test-salu" "/test" (Or.inl rfl) (Or.inl ⟨by decide, rfl⟩)
      (by decide) hv1
  · exact h2.2.2.2.2 "SignOut" "test-salt" "test-user@example.con"
      (Or.inr (Or.inr (Or.inr rfl))) (Or.inr ⟨by decide, rfl⟩) (by decide) hv4

/-- C2 (code evaluation at the failing input): a SignOut request whose
signature validates is answered 400 Unsupported operation by the
delegation handler -- the handler has no SignOut branch at all -- while
the test suite and the spec require a 302 redirect to the end session
endpoint or to the portal return URL. -/
theorem signout_valid_signature_gets_unsupported :
    validateApimSignature tEnv (some "SignOut") (some "test-salt") (some "/dashboard")
        (some "test-user@example.com") (some tSigOut) = true ∧
    delegationHandler tEnv
        { operation := some "SignOut", userId := some "test-user@example.com",
          salt := some "test-salt", returnUrl := some "/dashboard", sig := some tSigOut }
        (Except.ok
          { issuer := "https://iss", clientId := "cid", clientSecret := "sec",
            redirectUri := "https://cb",
            endpoints :=
              { authorization_endpoint := some "https://iss/oauth2/authorize",
                token_endpoint := some "https://iss/oauth2/token",
                userinfo_endpoint := some "https://iss/oauth2/userinfo",
                end_session_endpoint := some "https://iss/oauth2/logout",
                issuer := some "https://iss" } })
        1700000000000 =
      { status := 400, error := some "Unsupported operation", details := none,
        location := none } := by
  constructor
  · decide
  · decide

/-- C3 counterexample: a request with the unrecognized operation "Delete"
is answered 401 Invalid signature -- the signature-failure response --
rather than the claimed 400 Unsupported operation, whatever signature is
supplied. -/
theorem unknown_operation_gets_401_counterexample :
    delegationHandler tEnv
        { operation := some "Delete", userId := some "u", salt := some "s",
          returnUrl := some "/r", sig := some "any-signature" }
        (Except.error "no config") 0 =
      { status := 401, error := some "Invalid signature", details := none,
        location := none } := by
  decide

/-- C3 amended: for every operation value outside the six recognized
operations, signature validation fails in its default branch, so the
handler answers 401 Invalid signature (the same response as a signature
failure), never reaching the 400 Unsupported operation response; that 400
is reserved for recognized operations other than SignIn that pass
signature validation. -/
theorem unknown_operation_always_401 (env : DelegationEnv) (req : DelegationRequest)
    (oidc : Except String OidcConfig) (now : Int)
    (hop : req.operation ∉ ([some "SignIn", some "SignUp", some "ChangePassword",
      some "ChangeProfile", some "CloseAccount", some "SignOut"] : List (Option String))) :
    delegationHandler env req oidc now =
      { status := 401, error := some "Invalid signature", details := none,
        location := none } := by
  simp only [List.mem_cons, List.not_mem_nil, or_false, not_or] at hop
  obtain ⟨h1, h2, h3, h4, h5, h6⟩ := hop
  have hc : canonicalStringFor req.operation req.salt req.returnUrl req.userId = none := by
    unfold canonicalStringFor
    rw [if_neg (by tauto), if_neg (by tauto)]
  have hval : validateApimSignature env req.operation req.salt req.returnUrl req.userId
      req.sig = false := by
    unfold validateApimSignature
    rw [hc]
    split
    · rfl
    · rfl
  unfold delegationHandler
  rw [hval]
  simp

/-- Witness for the amended C3 at a concrete unrecognized operation. -/
theorem unknown_operation_always_401_witness :
    delegationHandler ⟨some "a2V5"⟩
        { operation := some "Frobnicate", userId := some "user", salt := some "salty",
          returnUrl := some "/home", sig := some "sig" }
        (Except.error "down") 42 =
      { status := 401, error := some "Invalid signature", details := none,
        location := none } :=
  unknown_operation_always_401 _ _ _ _ (by decide)

/-- C4: a cached entry strictly younger than the TTL is returned without a
network request and without touching the cache; an entry at least as old
as the TTL is never returned: a fresh fetch is issued and its outcome (the
discovered set, or the fallback on failure) is returned instead. -/
theorem discovery_cache_ttl_behavior (cache : DiscoveryCache) (env : OidcPathEnv)
    (now : Int) (fetch : Except String DiscoveryDoc) (issuer : String) (e : CacheEntry)
    (hcached : cacheGet cache issuer = some e) :
    (now - e.timestamp < CACHE_TTL →
      discoverOidcEndpoints cache env now fetch issuer =
        { endpoints := e.endpoints, cache := cache, fetched := false }) ∧
    (CACHE_TTL ≤ now - e.timestamp →
      (discoverOidcEndpoints cache env now fetch issuer).fetched = true ∧
      (discoverOidcEndpoints cache env now fetch issuer).endpoints =
        (match fetch with
          | .ok doc => extractEndpoints doc
          | .error _ => fallbackEndpoints env issuer)) := by
  constructor
  · intro hfresh
    simp only [discoverOidcEndpoints, hcached]
    rw [if_pos hfresh]
  · intro hstale
    simp only [discoverOidcEndpoints, hcached]
    rw [if_neg (by omega)]
    cases fetch <;> simp [discoverFetch]

/-- Witness for C4: a fresh hit is served from the cache without fetching,
and a stale entry triggers a fetch whose fallback result is returned. -/
theorem discovery_cache_ttl_behavior_witness :
    cacheGet [("https://iss", ⟨fallbackEndpoints ⟨none, none, none, none⟩ "https://iss", 1000⟩)]
      "https://iss" = some ⟨fallbackEndpoints ⟨none, none, none, none⟩ "https://iss", 1000⟩ ∧
    1000100 - 1000 < CACHE_TTL ∧
    discoverOidcEndpoints
        [("https://iss", ⟨fallbackEndpoints ⟨none, none, none, none⟩ "https://iss", 1000⟩)]
        ⟨none, none, none, none⟩ 1000100 (Except.error "down") "https://iss" =
      { endpoints := fallbackEndpoints ⟨none, none, none, none⟩ "https://iss",
        cache :=
          [("https://iss",
            ⟨fallbackEndpoints ⟨none, none, none, none⟩ "https://iss", 1000⟩)],
        fetched := false } ∧
    CACHE_TTL ≤ 5000000 - 1000 ∧
    (discoverOidcEndpoints
        [("https://iss", ⟨fallbackEndpoints ⟨none, none, none, none⟩ "https://iss", 1000⟩)]
        ⟨none, none, none, none⟩ 5000000 (Except.error "down") "https://iss").fetched =
      true := by
  have h := discovery_cache_ttl_behavior
    [("https://iss", ⟨fallbackEndpoints ⟨none, none, none, none⟩ "https://iss", 1000⟩)]
    ⟨none, none, none, none⟩ 1000100 (Except.error "down") "https://iss"
    ⟨fallbackEndpoints ⟨none, none, none, none⟩ "https://iss", 1000⟩ (by decide)
  have h2 := discovery_cache_ttl_behavior
    [("https://iss", ⟨fallbackEndpoints ⟨none, none, none, none⟩ "https://iss", 1000⟩)]
    ⟨none, none, none, none⟩ 5000000 (Except.error "down") "https://iss"
    ⟨fallbackEndpoints ⟨none, none, none, none⟩ "https://iss", 1000⟩ (by decide)
  exact ⟨by decide, by decide, h.1 (by decide), by decide, (h2.2 (by decide)).1⟩

/-- C5 counterexample: with no end-session override configured, the
fallback endpoint set returned on a failed discovery has NO
`end_session_endpoint` at all, so not every path suffix defaults to a
conventional path as the claim states. -/
theorem discovery_fallback_end_session_counterexample :
    (discoverOidcEndpoints [] ⟨none, none, none, none⟩ 0 (Except.error "HTTP 500")
        "https://iss").endpoints.end_session_endpoint = none := by
  decide

/-- C5 amended: when the discovery fetch fails in any way, the call does
not raise: it returns the fallback set formed by concatenating the issuer
with the configurable path suffixes, where the authorization, token and
userinfo suffixes default to conventional paths and the end-session
suffix, which has no default, yields an absent endpoint when unset; the
fallback is not written to the cache, so the next call for that issuer
attempts discovery again. -/
theorem discovery_fallback_behavior (cache : DiscoveryCache) (env : OidcPathEnv)
    (now : Int) (err : String) (issuer : String)
    (hmiss : cacheGet cache issuer = none) :
    discoverOidcEndpoints cache env now (Except.error err) issuer =
      { endpoints := fallbackEndpoints env issuer, cache := cache, fetched := true } ∧
    (fallbackEndpoints env issuer).authorization_endpoint =
      some (issuer ++ jsOrDefault env.authorizationEndpoint "/oauth2/authorize") ∧
    (fallbackEndpoints env issuer).token_endpoint =
      some (issuer ++ jsOrDefault env.tokenEndpoint "/oauth2/token") ∧
    (fallbackEndpoints env issuer).userinfo_endpoint =
      some (issuer ++ jsOrDefault env.userinfoEndpoint "/oauth2/userinfo") ∧
    (fallbackEndpoints env issuer).end_session_endpoint =
      (if jsFalsy env.endSessionEndpoint then none
        else some (issuer ++ jsStr env.endSessionEndpoint)) ∧
    (∀ (now2 : Int) (fetch2 : Except String DiscoveryDoc),
      (discoverOidcEndpoints cache env now2 fetch2 issuer).fetched = true) := by
  refine ⟨?_, rfl, rfl, rfl, rfl, ?_⟩
  · simp only [discoverOidcEndpoints, hmiss]
    rfl
  · intro now2 fetch2
    simp only [discoverOidcEndpoints, hmiss]
    cases fetch2 <;> rfl

/-- Witness for the amended C5 at concrete inputs. -/
theorem discovery_fallback_behavior_witness :
    cacheGet [] "https://acme.example" = none ∧
    discoverOidcEndpoints [] ⟨none, none, some "/ui", none⟩ 7 (Except.error "boom")
        "https://acme.example" =
      { endpoints :=
          { authorization_endpoint := some "https://acme.example/oauth2/authorize",
            token_endpoint := some "https://acme.example/oauth2/token",
            userinfo_endpoint := some "https://acme.example/ui",
            end_session_endpoint := none, issuer := some "https://acme.example" },
        cache := [], fetched := true } := by
  have h := discovery_fallback_behavior [] ⟨none, none, some "/ui", none⟩ 7 "boom"
    "https://acme.example" (by decide)
  refine ⟨by decide, ?_⟩
  rw [h.1]
  decide

theorem replaceFirstChar_length (cs : List Char) (t r : Char) :
    (replaceFirstChar cs t r).length = cs.length := by
  induction cs with
  | nil => rfl
  | cons c rest ih =>
      simp only [replaceFirstChar]
      split <;> simp [ih]

theorem replaceAllChar_length (cs : List Char) (t r : Char) :
    (replaceAllChar cs t r).length = cs.length := by
  induction cs with
  | nil => rfl
  | cons c rest ih => simp [replaceAllChar, ih]

theorem replaceAllChar_getD (cs : List Char) (t r : Char) (i : Nat) (d : Char)
    (hi : i < cs.length) :
    (replaceAllChar cs t r).getD i d = if cs.getD i d = t then r else cs.getD i d := by
  induction cs generalizing i with
  | nil => simp at hi
  | cons c rest ih =>
      cases i with
      | zero => simp [replaceAllChar]
      | succ j =>
          simp only [replaceAllChar, List.getD_cons_succ]
          exact ih j (by simpa using hi)

theorem replaceFirstChar_getD (cs : List Char) (t r : Char) (i : Nat) (d : Char)
    (hi : i < cs.length) :
    (replaceFirstChar cs t r).getD i d =
      if firstAt cs t = some i then r else cs.getD i d := by
  induction cs generalizing i with
  | nil => simp at hi
  | cons c rest ih =>
      by_cases hc : c = t
      · simp only [replaceFirstChar, firstAt, if_pos hc]
        cases i with
        | zero => simp
        | succ j => simp
      · simp only [replaceFirstChar, firstAt, if_neg hc]
        cases i with
        | zero =>
            simp only [List.getD_cons_zero]
            rw [if_neg]
            cases hfa : firstAt rest t <;> simp [hfa]
        | succ j =>
            simp only [List.getD_cons_succ]
            rw [ih j (by simpa using hi)]
            cases hfa : firstAt rest t with
            | none => simp [hfa]
            | some k =>
                simp only [hfa, Option.map_some']
                by_cases hk : k = j
                · subst hk
                  simp
                · rw [if_neg (by simpa using hk), if_neg (by simp [hk])]

theorem firstAt_getD (cs : List Char) (t : Char) (i : Nat) (d : Char)
    (h : firstAt cs t = some i) : cs.getD i d = t := by
  induction cs generalizing i with
  | nil => simp [firstAt] at h
  | cons c rest ih =>
      by_cases hc : c = t
      · simp only [firstAt, if_pos hc] at h
        injection h with h
        subst h
        simpa using hc
      · simp only [firstAt, if_neg hc] at h
        cases hfa : firstAt rest t with
        | none => rw [hfa] at h; simp at h
        | some k =>
            rw [hfa] at h
            simp only [Option.map_some'] at h
            injection h with h
            cases i with
            | zero => omega
            | succ j =>
                simp only [List.getD_cons_succ]
                exact ih j (by rw [hfa]; congr 1; omega)

/-- C10: the gateway-safe identifier keeps the length of the email and
rewrites exactly the first "@" and every "." to "_": any other character,
including other non-alphanumerics such as "+" or "-", is preserved at its
position. -/
theorem apim_user_id_characterization (email : String) :
    (apimUserId email).data.length = email.data.length ∧
    ∀ i, i < email.data.length →
      (apimUserId email).data.getD i ' ' =
        (if email.data.getD i ' ' = '.' ∨
            (email.data.getD i ' ' = '@' ∧ firstAt email.data '@' = some i) then '_'
          else email.data.getD i ' ') := by
  constructor
  · simp [apimUserId, replaceAllChar_length, replaceFirstChar_length]
  · intro i hi
    have hlen : i < (replaceFirstChar email.data '@' '_').length := by
      rw [replaceFirstChar_length]
      exact hi
    have h1 : (apimUserId email).data =
        replaceAllChar (replaceFirstChar email.data '@' '_') '.' '_' := rfl
    rw [h1, replaceAllChar_getD _ _ _ _ _ hlen, replaceFirstChar_getD _ _ _ _ _ hi]
    by_cases hfa : firstAt email.data '@' = some i
    · have hat : email.data.getD i ' ' = '@' := firstAt_getD _ _ _ _ hfa
      rw [if_pos hfa, if_neg (by decide), if_pos (Or.inr ⟨hat, hfa⟩)]
    · rw [if_neg hfa]
      by_cases hdot : email.data.getD i ' ' = '.'
      · rw [if_pos hdot, if_pos (Or.inl hdot)]
      · rw [if_neg hdot, if_neg]
        rintro (h | ⟨-, h⟩)
        · exact hdot h
        · exact hfa h

/-- Witness for C10: in "a.b@c@d" the second "@" (index 5) is preserved
while the first "@" and the "." are rewritten. -/
theorem apim_user_id_characterization_witness :
    (5 < "a.b@c@d".data.length ∧ (apimUserId "a.b@c@d").data.getD 5 ' ' = '@') ∧
    apimUserId "a.b@c@d" = "a_b_c@d" := by
  refine ⟨⟨by decide, ?_⟩, by decide⟩
  exact ((apim_user_id_characterization "a.b@c@d").2 5 (by decide)).trans (by decide)

theorem utf8EncodeChar_bytes (c : Char) : ∀ b ∈ utf8EncodeChar c, IsByte b := by
  have hv := char_toNat_valid c
  intro b hb
  simp only [utf8EncodeChar] at hb
  unfold IsByte
  split_ifs at hb <;>
    simp only [List.mem_cons, List.not_mem_nil, or_false] at hb
  · subst hb
    omega
  · rcases hb with rfl | rfl <;> omega
  · rcases hb with rfl | rfl | rfl <;> omega
  · rcases hb with rfl | rfl | rfl | rfl <;> omega

theorem utf8Encode_bytes (cs : List Char) : ∀ b ∈ utf8Encode cs, IsByte b := by
  intro b hb
  unfold utf8Encode at hb
  simp only [List.mem_flatten, List.mem_map] at hb
  obtain ⟨l, ⟨c, _, rfl⟩, hbl⟩ := hb
  exact utf8EncodeChar_bytes c b hbl

theorem hexVal_hexLower_all : ∀ m < 16, hexVal (hexLower m) = some m := by decide

theorem skipWs_not_ws (c : Char) (rest : List Char) (h : isWsCh c = false) :
    skipWs (c :: rest) = c :: rest := by
  simp [skipWs, h]

theorem jsonEscape_length_ge (cs : List Char) :
    cs.length ≤ ((cs.map jsonEscapeChar).flatten).length := by
  induction cs with
  | nil => simp
  | cons c cs ih =>
      have hpos : 1 ≤ (jsonEscapeChar c).length := by
        unfold jsonEscapeChar
        split_ifs <;> simp
      simp only [List.map_cons, List.flatten_cons, List.length_append, List.length_cons]
      omega

theorem parseStrBodyF_u (f : Nat) (d3 d4 : Char) (v3 v4 : Nat) (rest2 : List Char)
    (h3 : hexVal d3 = some v3) (h4 : hexVal d4 = some v4) :
    parseStrBodyF (f + 1) ('\\' :: 'u' :: '0' :: '0' :: d3 :: d4 :: rest2) =
      (parseStrBodyF f rest2).map
        (fun p =>
          ((if 55296 ≤ v3 * 16 + v4 ∧ v3 * 16 + v4 < 57344 then replChar
            else Char.ofNat (v3 * 16 + v4)) :: p.1, p.2)) := by
  simp only [parseStrBodyF]
  simp [h3, h4, show hexVal '0' = some 0 from by decide]

theorem parseStrBodyF_cons (c : Char) (cs tail : List Char) (f : Nat)
    (hrec : parseStrBodyF f ((cs.map jsonEscapeChar).flatten ++ '"' :: tail) =
      some (cs, tail)) :
    parseStrBodyF (f + 1)
        (jsonEscapeChar c ++ ((cs.map jsonEscapeChar).flatten ++ '"' :: tail)) =
      some (c :: cs, tail) := by
  by_cases h1 : c = '"'
  · subst h1
    have hesc : jsonEscapeChar '"' = ['\\', '"'] := by decide
    rw [hesc]
    simp only [List.cons_append, List.nil_append, parseStrBodyF]
    simp [hrec]
  · by_cases h2 : c = '\\'
    · subst h2
      have hesc : jsonEscapeChar '\\' = ['\\', '\\'] := by decide
      rw [hesc]
      simp only [List.cons_append, List.nil_append, parseStrBodyF]
      simp [hrec]
    · by_cases h3 : c.toNat = 8
      · have hc : c = Char.ofNat 8 := by
          rw [← Char.ofNat_toNat c, h3]
        subst hc
        have hesc : jsonEscapeChar (Char.ofNat 8) = ['\\', 'b'] := by decide
        rw [hesc]
        simp only [List.cons_append, List.nil_append, parseStrBodyF]
        simp [hrec]
      · by_cases h4 : c.toNat = 9
        · have hc : c = Char.ofNat 9 := by
            rw [← Char.ofNat_toNat c, h4]
          subst hc
          have hesc : jsonEscapeChar (Char.ofNat 9) = ['\\', 't'] := by decide
          rw [hesc]
          simp only [List.cons_append, List.nil_append, parseStrBodyF]
          simp [hrec]
        · by_cases h5 : c.toNat = 10
          · have hc : c = Char.ofNat 10 := by
              rw [← Char.ofNat_toNat c, h5]
            subst hc
            have hesc : jsonEscapeChar (Char.ofNat 10) = ['\\', 'n'] := by decide
            rw [hesc]
            simp only [List.cons_append, List.nil_append, parseStrBodyF]
            simp [hrec]
          · by_cases h6 : c.toNat = 12
            · have hc : c = Char.ofNat 12 := by
                rw [← Char.ofNat_toNat c, h6]
              subst hc
              have hesc : jsonEscapeChar (Char.ofNat 12) = ['\\', 'f'] := by decide
              rw [hesc]
              simp only [List.cons_append, List.nil_append, parseStrBodyF]
              simp [hrec]
            · by_cases h7 : c.toNat = 13
              · have hc : c = Char.ofNat 13 := by
                  rw [← Char.ofNat_toNat c, h7]
                subst hc
                have hesc : jsonEscapeChar (Char.ofNat 13) = ['\\', 'r'] := by decide
                rw [hesc]
                simp only [List.cons_append, List.nil_append, parseStrBodyF]
                simp [hrec]
              · by_cases h8 : c.toNat < 32
                · have hesc : jsonEscapeChar c =
                      ['\\', 'u', '0', '0', hexLower (c.toNat / 16),
                        hexLower (c.toNat % 16)] := by
                    unfold jsonEscapeChar
                    rw [if_neg h1, if_neg h2, if_neg h3, if_neg h4, if_neg h5, if_neg h6,
                      if_neg h7, if_pos h8]
                  rw [hesc]
                  simp only [List.cons_append, List.nil_append]
                  rw [parseStrBodyF_u f _ _ (c.toNat / 16) (c.toNat % 16) _
                    (hexVal_hexLower_all _ (by omega)) (hexVal_hexLower_all _ (by omega)),
                    hrec]
                  have hcode : c.toNat / 16 * 16 + c.toNat % 16 = c.toNat := by omega
                  rw [hcode, if_neg (by omega), Char.ofNat_toNat]
                  rfl
                · have hesc : jsonEscapeChar c = [c] := by
                    unfold jsonEscapeChar
                    rw [if_neg h1, if_neg h2, if_neg h3, if_neg h4, if_neg h5, if_neg h6,
                      if_neg h7, if_neg h8]
                  rw [hesc]
                  simp only [List.append_eq, List.cons_append, List.nil_append, parseStrBodyF]
                  rw [if_neg h1, if_neg h2, if_neg (by omega), hrec]
                  rfl

theorem parseStrBodyF_escape (cs : List Char) :
    ∀ (tail : List Char) (fuel : Nat), cs.length < fuel →
      parseStrBodyF fuel ((cs.map jsonEscapeChar).flatten ++ '"' :: tail) = some (cs, tail) := by
  induction cs with
  | nil =>
      intro tail fuel hfuel
      cases fuel with
      | zero => omega
      | succ f => exact rfl
  | cons c cs ih =>
      intro tail fuel hfuel
      cases fuel with
      | zero => omega
      | succ f =>
          have hf : cs.length < f := by
            simp only [List.length_cons] at hfuel
            omega
          have hrec := ih tail f hf
          have hshape : ((c :: cs).map jsonEscapeChar).flatten ++ '"' :: tail =
              jsonEscapeChar c ++ ((cs.map jsonEscapeChar).flatten ++ '"' :: tail) := by
            simp [List.append_assoc]
          rw [hshape]
          exact parseStrBodyF_cons c cs tail f hrec

theorem parseStrBody_escape (cs : List Char) (tail : List Char) :
    parseStrBody ((cs.map jsonEscapeChar).flatten ++ '"' :: tail) = some (cs, tail) := by
  unfold parseStrBody
  apply parseStrBodyF_escape
  have := jsonEscape_length_ge cs
  simp only [List.length_append, List.length_cons]
  omega

theorem digitChar_toNat : ∀ m < 10, (digitChar m).toNat = 48 + m := by decide

theorem digitChar_isDigit : ∀ m < 10, isDigitCh (digitChar m) = true := by decide

theorem digitsVal_append_last (xs : List Char) (d : Char) :
    digitsVal (xs ++ [d]) = digitsVal xs * 10 + (d.toNat - 48) := by
  simp [digitsVal, List.foldl_append]

theorem natDigitsAux_spec (n : Nat) : ∀ fuel, n ≤ fuel →
    digitsVal (natDigitsAux fuel n).reverse = n ∧
      ∀ c ∈ natDigitsAux fuel n, isDigitCh c = true := by
  induction n using Nat.strong_induction_on with
  | _ n ih =>
    intro fuel hfuel
    cases fuel with
    | zero =>
        have hn : n = 0 := by omega
        subst hn
        exact ⟨rfl, by simp [natDigitsAux]⟩
    | succ f =>
        cases n with
        | zero => exact ⟨rfl, by simp [natDigitsAux]⟩
        | succ m =>
            have hstep : natDigitsAux (f + 1) (m + 1) =
                digitChar ((m + 1) % 10) :: natDigitsAux f ((m + 1) / 10) := rfl
            have hq : (m + 1) / 10 < m + 1 := by omega
            have hqf : (m + 1) / 10 ≤ f := by omega
            obtain ⟨hval, hdig⟩ := ih ((m + 1) / 10) hq f hqf
            constructor
            · rw [hstep]
              simp only [List.reverse_cons]
              rw [digitsVal_append_last, hval, digitChar_toNat ((m + 1) % 10) (by omega)]
              omega
            · rw [hstep]
              intro c hc
              rcases List.mem_cons.mp hc with rfl | hc2
              · exact digitChar_isDigit ((m + 1) % 10) (by omega)
              · exact hdig c hc2

theorem natDec_val (n : Nat) : digitsVal (natDec n) = n := by
  by_cases hn : n = 0
  · subst hn
    decide
  · unfold natDec
    rw [if_neg hn]
    exact (natDigitsAux_spec n n le_rfl).1

theorem natDec_digits (n : Nat) : ∀ c ∈ natDec n, isDigitCh c = true := by
  by_cases hn : n = 0
  · subst hn
    decide
  · unfold natDec
    rw [if_neg hn]
    intro c hc
    exact (natDigitsAux_spec n n le_rfl).2 c (List.mem_reverse.mp hc)

theorem natDec_ne_nil (n : Nat) : natDec n ≠ [] := by
  by_cases hn : n = 0
  · subst hn
    decide
  · unfold natDec
    rw [if_neg hn]
    intro hcon
    have hlen : (natDigitsAux n n).reverse = [] := hcon
    have : digitsVal (natDigitsAux n n).reverse = n := (natDigitsAux_spec n n le_rfl).1
    rw [hlen] at this
    exact hn this.symm

theorem takeDigits_append (ds : List Char) :
    ∀ tail, (∀ c ∈ ds, isDigitCh c = true) → HeadNotDigit tail →
      takeDigits (ds ++ tail) = (ds, tail) := by
  induction ds with
  | nil =>
      intro tail _ htail
      cases tail with
      | nil => rfl
      | cons c r =>
          simp only [List.nil_append, takeDigits]
          rw [if_neg]
          simp only [HeadNotDigit] at htail
          simp [htail]
  | cons d ds ih =>
      intro tail hds htail
      have hd : isDigitCh d = true := hds d (by simp)
      have hih := ih tail (fun c hc => hds c (by simp [hc])) htail
      simp only [List.cons_append, takeDigits, if_pos hd, List.append_eq, hih]

theorem digit_facts (c : Char) (h : isDigitCh c = true) :
    isWsCh c = false ∧ c ≠ '"' ∧ c ≠ '{' ∧ c ≠ '[' ∧ c ≠ 't' ∧ c ≠ 'f' ∧ c ≠ 'n' ∧
      c ≠ '-' := by
  unfold isDigitCh at h
  simp only [Bool.and_eq_true, decide_eq_true_eq] at h
  obtain ⟨hlo, hhi⟩ := h
  refine ⟨?_, ?_, ?_, ?_, ?_, ?_, ?_, ?_⟩
  · unfold isWsCh
    simp only [Bool.or_eq_false_iff, decide_eq_false_iff_not]
    refine ⟨⟨⟨?_, ?_⟩, ?_⟩, ?_⟩ <;>
      · intro he
        subst he
        revert hlo hhi
        decide
  all_goals
    intro he
    subst he
    revert hlo hhi
    decide

theorem parseJsonF_strLit (s : String) (tail : List Char) (f : Nat) :
    parseJsonF (f + 1) ((jsonQuote s).data ++ tail) = some (Json.str s, tail) := by
  have hdata : (jsonQuote s).data ++ tail =
      ('"' :: ((s.data.map jsonEscapeChar).flatten ++ ['"'])) ++ tail := rfl
  rw [hdata]
  simp only [List.cons_append, List.append_assoc, List.singleton_append, List.nil_append]
  simp only [parseJsonF]
  rw [show skipWs ('"' :: ((s.data.map jsonEscapeChar).flatten ++ '"' :: tail)) =
      '"' :: ((s.data.map jsonEscapeChar).flatten ++ '"' :: tail) from by
    simp [skipWs, isWsCh]]
  have hgoal : Option.map (fun p => (Json.str (String.mk p.1), p.2))
      (parseStrBody ((s.data.map jsonEscapeChar).flatten ++ '"' :: tail)) =
      some (Json.str s, tail) := by
    rw [parseStrBody_escape s.data tail]
    rfl
  exact hgoal

theorem parseJsonF_intDec (n : Int) (tail : List Char) (f : Nat)
    (htail : HeadNotDigit tail) :
    parseJsonF (f + 1) (intDec n ++ tail) = some (Json.num n, tail) := by
  by_cases hn : n < 0
  · have hdec : intDec n = '-' :: natDec n.natAbs := by
      unfold intDec
      rw [if_pos hn]
    obtain ⟨d, ds, hdds⟩ := List.exists_cons_of_ne_nil (natDec_ne_nil n.natAbs)
    have htd : takeDigits (d :: (ds ++ tail)) = (d :: ds, tail) := by
      have := takeDigits_append (d :: ds) tail
        (by rw [← hdds]; exact natDec_digits n.natAbs) htail
      simpa using this
    have hval : digitsVal (d :: ds) = n.natAbs := by
      rw [← hdds]
      exact natDec_val n.natAbs
    have hneg : -((n.natAbs : Nat) : Int) = n := by omega
    have habs : -|n| = n := by
      rw [abs_of_nonpos (le_of_lt hn), neg_neg]
    rw [hdec]
    simp only [List.cons_append, parseJsonF]
    rw [show skipWs ('-' :: (natDec n.natAbs ++ tail)) =
        '-' :: (natDec n.natAbs ++ tail) from by simp [skipWs, isWsCh]]
    simp [hdds, htd, hval, hneg, habs]
  · have hdec : intDec n = natDec n.natAbs := by
      unfold intDec
      rw [if_neg hn]
    obtain ⟨d, ds, hdds⟩ := List.exists_cons_of_ne_nil (natDec_ne_nil n.natAbs)
    have hd : isDigitCh d = true := natDec_digits n.natAbs d (by rw [hdds]; simp)
    obtain ⟨hws, hq, hb, hk, ht, hf2, hn2, hm⟩ := digit_facts d hd
    have htd : takeDigits (d :: (ds ++ tail)) = (d :: ds, tail) := by
      have := takeDigits_append (d :: ds) tail
        (by rw [← hdds]; exact natDec_digits n.natAbs) htail
      simpa using this
    have hval : digitsVal (d :: ds) = n.natAbs := by
      rw [← hdds]
      exact natDec_val n.natAbs
    have hcast : ((n.natAbs : Nat) : Int) = n := by omega
    rw [hdec, hdds]
    simp only [List.cons_append, parseJsonF]
    rw [show skipWs (d :: (ds ++ tail)) = d :: (ds ++ tail) from by simp [skipWs, hws]]
    simp [hq, hb, hk, ht, hf2, hn2, hm, hd, htd, hval, hcast]

theorem strData_append (a b : String) : (a ++ b).data = a.data ++ b.data := rfl

theorem string_mk_data (s : String) : String.mk s.data = s := rfl

theorem parseJsonF_scalar (v : Json) (hv : IsScalarOk v) (tail : List Char) (f : Nat)
    (htail : HeadNotDigit tail) :
    parseJsonF (f + 1) ((printScalar v).data ++ tail) = some (v, tail) := by
  rcases hv with ⟨s, rfl⟩ | ⟨n, rfl⟩
  · exact parseJsonF_strLit s tail f
  · exact parseJsonF_intDec n tail f htail

theorem printMember_data (k : String) (v : Json) (after : List Char) :
    (printMember k v).data ++ after =
      '"' :: ((k.data.map jsonEscapeChar).flatten ++ '"' :: ':' ::
        ((printScalar v).data ++ after)) := by
  have h1 : (printMember k v).data =
      (('"' :: ((k.data.map jsonEscapeChar).flatten ++ ['"'])) ++ [':']) ++
        (printScalar v).data := rfl
  rw [h1]
  simp [List.append_assoc]

theorem parseMembersF_print (fields : List (String × Json)) :
    ∀ (tail : List Char) (fuel : Nat), fields.length < fuel → fields ≠ [] →
      (∀ kv ∈ fields, IsScalarOk kv.2) →
      parseMembersF fuel ((printMembers fields).data ++ '}' :: tail) =
        some (fields, tail) := by
  induction fields with
  | nil =>
      intro tail fuel _ hne _
      exact absurd rfl hne
  | cons kv rest ih =>
      intro tail fuel hfuel _ hsc
      obtain ⟨k, v⟩ := kv
      have hv : IsScalarOk v := hsc (k, v) (by simp)
      have hswq : ∀ X : List Char, skipWs ('"' :: X) = '"' :: X := fun X => by
        simp [skipWs, isWsCh]
      have hswc : ∀ X : List Char, skipWs (':' :: X) = ':' :: X := fun X => by
        simp [skipWs, isWsCh]
      have hswcm : ∀ X : List Char, skipWs (',' :: X) = ',' :: X := fun X => by
        simp [skipWs, isWsCh]
      have hswb : ∀ X : List Char, skipWs ('}' :: X) = '}' :: X := fun X => by
        simp [skipWs, isWsCh]
      cases fuel with
      | zero => omega
      | succ f =>
        cases f with
        | zero =>
            simp only [List.length_cons] at hfuel
            omega
        | succ f2 =>
          cases rest with
          | nil =>
              have hshape : (printMembers [(k, v)]).data ++ '}' :: tail =
                  '"' :: ((k.data.map jsonEscapeChar).flatten ++ '"' :: ':' ::
                    ((printScalar v).data ++ '}' :: tail)) :=
                printMember_data k v ('}' :: tail)
              have hkey := parseStrBody_escape k.data
                (':' :: ((printScalar v).data ++ '}' :: tail))
              have hval := parseJsonF_scalar v hv ('}' :: tail) f2 (by
                show isDigitCh '}' = false
                decide)
              rw [hshape, parseMembersF]
              simp [hswq, hswc, hswb, hkey, hval, string_mk_data]
          | cons kv2 rest2 =>
              have hcomma : ("," : String).data = [','] := rfl
              have hshape : (printMembers ((k, v) :: kv2 :: rest2)).data ++ '}' :: tail =
                  '"' :: ((k.data.map jsonEscapeChar).flatten ++ '"' :: ':' ::
                    ((printScalar v).data ++ ',' ::
                      ((printMembers (kv2 :: rest2)).data ++ '}' :: tail))) := by
                show ((printMember k v ++ "," ++ printMembers (kv2 :: rest2)).data) ++
                    '}' :: tail = _
                rw [strData_append, strData_append, hcomma]
                simp only [List.append_assoc, List.singleton_append]
                exact printMember_data k v _
              have hkey := parseStrBody_escape k.data
                (':' :: ((printScalar v).data ++ ',' ::
                  ((printMembers (kv2 :: rest2)).data ++ '}' :: tail)))
              have hval := parseJsonF_scalar v hv
                (',' :: ((printMembers (kv2 :: rest2)).data ++ '}' :: tail)) f2 (by
                show isDigitCh ',' = false
                decide)
              have hrec := ih tail (f2 + 1) (by
                  simp only [List.length_cons] at hfuel ⊢
                  omega)
                (by simp) (fun kv3 h3 => hsc kv3 (by simp [h3]))
              rw [hshape, parseMembersF]
              simp [hswq, hswc, hswcm, hkey, hval, hrec, string_mk_data]

theorem parseJsonF_obj_print (k : String) (v : Json) (rest : List (String × Json))
    (tail : List Char) (fuel : Nat) (hfuel : rest.length + 2 < fuel)
    (hsc : ∀ kv ∈ (k, v) :: rest, IsScalarOk kv.2) :
    parseJsonF fuel
        ('{' :: ((printMembers ((k, v) :: rest)).data ++ '}' :: tail)) =
      some (Json.obj ((k, v) :: rest), tail) := by
  have hswo : ∀ X : List Char, skipWs ('{' :: X) = '{' :: X := fun X => by
    simp [skipWs, isWsCh]
  have hswq : ∀ X : List Char, skipWs ('"' :: X) = '"' :: X := fun X => by
    simp [skipWs, isWsCh]
  cases fuel with
  | zero => omega
  | succ f =>
    have hmem := parseMembersF_print ((k, v) :: rest) tail f (by
        simp only [List.length_cons]
        omega)
      (by simp) hsc
    have hhead : ∃ Y : List Char,
        (printMembers ((k, v) :: rest)).data ++ '}' :: tail = '"' :: Y := by
      cases rest with
      | nil => exact ⟨_, printMember_data k v ('}' :: tail)⟩
      | cons kv2 rest2 =>
          refine ⟨(k.data.map jsonEscapeChar).flatten ++ '"' :: ':' ::
            ((printScalar v).data ++ ',' ::
              ((printMembers (kv2 :: rest2)).data ++ '}' :: tail)), ?_⟩
          show ((printMember k v ++ "," ++ printMembers (kv2 :: rest2)).data) ++
              '}' :: tail = _
          rw [strData_append, strData_append]
          simp only [List.append_assoc, List.singleton_append]
          exact printMember_data k v _
    obtain ⟨Y, hY⟩ := hhead
    rw [hY] at hmem
    rw [hY, parseJsonF]
    simp [hswo, hswq, hmem]

/-- C8: encoding a full state record (base64 of its JSON serialization,
as the delegation handler does) and decoding it (JSON parse of the base64
decode, as the callback handler does) reproduces the original four fields
exactly. -/
theorem state_roundtrip (returnUrl salt userId : String) (timestamp : Int) :
    decodeState (encodeStateData (some returnUrl) (some salt) (some userId) timestamp) =
      some (Json.obj [("returnUrl", Json.str returnUrl), ("salt", Json.str salt),
        ("userId", Json.str userId), ("timestamp", Json.num timestamp)]) ∧
    jsonGet (Json.obj [("returnUrl", Json.str returnUrl), ("salt", Json.str salt),
        ("userId", Json.str userId), ("timestamp", Json.num timestamp)]) "returnUrl" =
      some (Json.str returnUrl) ∧
    jsonGet (Json.obj [("returnUrl", Json.str returnUrl), ("salt", Json.str salt),
        ("userId", Json.str userId), ("timestamp", Json.num timestamp)]) "salt" =
      some (Json.str salt) ∧
    jsonGet (Json.obj [("returnUrl", Json.str returnUrl), ("salt", Json.str salt),
        ("userId", Json.str userId), ("timestamp", Json.num timestamp)]) "userId" =
      some (Json.str userId) ∧
    jsonGet (Json.obj [("returnUrl", Json.str returnUrl), ("salt", Json.str salt),
        ("userId", Json.str userId), ("timestamp", Json.num timestamp)]) "timestamp" =
      some (Json.num timestamp) := by
  have hsc : ∀ kv ∈ ([("salt", Json.str salt), ("userId", Json.str userId),
      ("timestamp", Json.num timestamp)] : List (String × Json)), IsScalarOk kv.2 := by
    intro kv hkv
    simp only [List.mem_cons, List.not_mem_nil, or_false] at hkv
    rcases hkv with rfl | rfl | rfl
    · exact Or.inl ⟨_, rfl⟩
    · exact Or.inl ⟨_, rfl⟩
    · exact Or.inr ⟨_, rfl⟩
  have hsc2 : ∀ kv ∈ (("returnUrl", Json.str returnUrl) ::
      [("salt", Json.str salt), ("userId", Json.str userId),
        ("timestamp", Json.num timestamp)] : List (String × Json)), IsScalarOk kv.2 := by
    intro kv hkv
    rcases List.mem_cons.mp hkv with rfl | hkv2
    · exact Or.inl ⟨_, rfl⟩
    · exact hsc kv hkv2
  have hbytes := utf8Encode_bytes
    (printStateData (some returnUrl) (some salt) (some userId) timestamp).data
  have h1 : decodeState (encodeStateData (some returnUrl) (some salt) (some userId)
      timestamp) = parseJson
        (printStateData (some returnUrl) (some salt) (some userId) timestamp) := by
    show parseJson (String.mk (utf8Decode (b64Decode (String.mk (b64Encode (utf8Encode
      (printStateData (some returnUrl) (some salt) (some userId) timestamp).data))).data)))
      = _
    rw [show (String.mk (b64Encode (utf8Encode
        (printStateData (some returnUrl) (some salt) (some userId) timestamp).data))).data =
        b64Encode (utf8Encode
          (printStateData (some returnUrl) (some salt) (some userId) timestamp).data)
      from rfl]
    rw [b64_roundtrip _ hbytes, utf8_roundtrip, string_mk_data]
  have hPdata : (printStateData (some returnUrl) (some salt) (some userId)
      timestamp).data =
      '{' :: ((printMembers (("returnUrl", Json.str returnUrl) ::
        [("salt", Json.str salt), ("userId", Json.str userId),
          ("timestamp", Json.num timestamp)])).data ++ '}' :: []) := rfl
  have h2 : parseJson (printStateData (some returnUrl) (some salt) (some userId)
      timestamp) = some (Json.obj [("returnUrl", Json.str returnUrl),
        ("salt", Json.str salt), ("userId", Json.str userId),
        ("timestamp", Json.num timestamp)]) := by
    unfold parseJson
    rw [hPdata]
    rw [parseJsonF_obj_print "returnUrl" (Json.str returnUrl)
      [("salt", Json.str salt), ("userId", Json.str userId),
        ("timestamp", Json.num timestamp)] [] _
      (by simp only [List.length_cons, List.length_nil, List.length_append]; omega) hsc2]
    rfl
  exact ⟨h1.trans h2, rfl, rfl, rfl, rfl⟩

/-- Every successful result of the provisioning branch is a 302 redirect
with no error body. -/
theorem provisioningStep_ok_shape (env : CallbackEnv) (world : CallbackWorld)
    (stateData : Json) (userData : UserData) (resp : HttpResponse)
    (h : provisioningStep env world stateData userData = Except.ok resp) :
    resp.error = none ∧ resp.status = 302 := by
  unfold provisioningStep at h
  rcases hm : userData.email with _ | em
  · simp only [hm] at h
    exact Except.noConfusion h
  · simp only [hm] at h
    rcases hcu : world.createUser with e | u
    · simp only [hcu] at h
      exact Except.noConfusion h
    · simp only [hcu] at h
      rcases hst : world.ssoToken with e | sj
      · simp only [hst] at h
        exact Except.noConfusion h
      · simp only [hst] at h
        rcases hv : jsonGet sj "value" with _ | v
        · simp only [hv] at h
          obtain rfl := Except.ok.inj h
          exact ⟨rfl, rfl⟩
        · rcases v with sv | n | kvs | xs | b | _ <;> simp only [hv] at h
          · split at h <;>
            · obtain rfl := Except.ok.inj h
              exact ⟨rfl, rfl⟩
          all_goals
            obtain rfl := Except.ok.inj h
            exact ⟨rfl, rfl⟩

/-- No branch of the callback pipeline after the freshness check produces
the expired-state error body. -/
theorem afterFreshness_no_expired (env : CallbackEnv) (world : CallbackWorld)
    (stateData : Json) :
    ((authCallbackAfterFreshness env world stateData).1).error ≠
      some "State parameter expired" := by
  unfold authCallbackAfterFreshness
  rcases hc : world.oidcConfig with e | cfg
  · simp
  · rcases ht : world.tokenResponse with e | tok
    · simp [respAuthFailed]
    · by_cases he : jsTruthyJson (jsonGet tok "error") = true
      · simp [he, respAuthFailed]
      · rcases hu : world.userInfo with e | ui
        · simp [he, respAuthFailed]
        · rcases hp : provisioningStep env world stateData (mkUserData ui world.nowIso)
            with e | resp
          · rcases hf : fallbackRedirectUrl env stateData (mkUserData ui world.nowIso)
              with msg | loc
            · simp [he, hp, hf, respAuthFailed]
            · simp [he, hp, hf, resp302]
          · have := provisioningStep_ok_shape env world stateData
              (mkUserData ui world.nowIso) resp hp
            simp [he, hp, this.1]

/-- C6: with code and state present and the state decoding to a record
whose timestamp is a number, the callback handler answers 400 State
parameter expired exactly when now - timestamp > 600000 ms, and that
rejection is issued with no network call attempted. -/
theorem state_freshness_rejection (env : CallbackEnv) (req : CallbackRequest)
    (world : CallbackWorld) (stateData : Json) (ts : Int)
    (hcode : jsFalsy req.code = false) (hstate : jsFalsy req.state = false)
    (hdec : decodeState (jsStr req.state) = some stateData)
    (hts : jsonGet stateData "timestamp" = some (Json.num ts)) :
    ((authCallbackHandler env req world).1 = resp400 "State parameter expired" ↔
      world.now - ts > 600000) ∧
    (world.now - ts > 600000 →
      authCallbackHandler env req world = (resp400 "State parameter expired", [])) := by
  have hfr : freshnessExpired world.now stateData = decide (world.now - ts > 600000) := by
    simp [freshnessExpired, hts, jsToNumber, decide_eq_decide]
    omega
  unfold authCallbackHandler
  simp only [hcode, hstate, hdec, hfr, Bool.or_self, Bool.false_eq_true, if_false]
  by_cases hexp : world.now - ts > 600000
  · simp [hexp]
  · simp [hexp]
    intro hcontra
    exact afterFreshness_no_expired env world stateData (by rw [hcontra]; rfl)

theorem state_freshness_rejection_witness :
    authCallbackHandler cbEnvA cbReqA cbWorldA = (resp400 "State parameter expired", []) :=
  (state_freshness_rejection cbEnvA cbReqA cbWorldA
      (Json.obj [("returnUrl", Json.str "/r"), ("salt", Json.str "s1"),
        ("userId", Json.str "u1"), ("timestamp", Json.num 0)]) 0
      rfl rfl rfl rfl).2 (by decide)

/-- C7: a run past token exchange and userinfo whose provisioning branch
throws reaches the fallback, whose own URL construction throws on the
stored return URL "http" - so the handler answers 500 Authentication
failed, not the claimed 302. -/
theorem provisioning_fallback_throws_counterexample :
    decodeState (jsStr cbReqC.state) =
      some (Json.obj [("returnUrl", Json.str "http"), ("salt", Json.str "s1"),
        ("userId", Json.str "u1"), ("timestamp", Json.num 0)]) ∧
    provisioningStep cbEnvA cbWorldB
        (Json.obj [("returnUrl", Json.str "http"), ("salt", Json.str "s1"),
          ("userId", Json.str "u1"), ("timestamp", Json.num 0)])
        (mkUserData cbUiB cbWorldB.nowIso) = Except.error "HTTP 500: boom" ∧
    (authCallbackHandler cbEnvA cbReqC cbWorldB).1.status = 500 ∧
    (authCallbackHandler cbEnvA cbReqC cbWorldB).1.error = some "Authentication failed" :=
  ⟨rfl, rfl, by decide, by decide⟩

/-- C7 (amended): when the provisioning branch throws, the handler falls
back to a redirect built from the stored return URL; if that URL
construction succeeds the response is the 302 redirect, and if it throws
the outer catch answers 500 Authentication failed. -/
theorem provisioning_fallback_redirect (env : CallbackEnv) (req : CallbackRequest)
    (world : CallbackWorld) (stateData : Json) (cfg : OidcConfig) (tok ui : Json)
    (e : String)
    (hcode : jsFalsy req.code = false) (hstate : jsFalsy req.state = false)
    (hdec : decodeState (jsStr req.state) = some stateData)
    (hfresh : freshnessExpired world.now stateData = false)
    (hcfg : world.oidcConfig = Except.ok cfg)
    (htok : world.tokenResponse = Except.ok tok)
    (herr : jsTruthyJson (jsonGet tok "error") = false)
    (hui : world.userInfo = Except.ok ui)
    (hprov : provisioningStep env world stateData (mkUserData ui world.nowIso) =
      Except.error e) :
    (∀ loc, fallbackRedirectUrl env stateData (mkUserData ui world.nowIso) =
        Except.ok loc →
      authCallbackHandler env req world =
        (resp302 loc, ["oidcConfig", "token", "userinfo", "apim"])) ∧
    (∀ msg, fallbackRedirectUrl env stateData (mkUserData ui world.nowIso) =
        Except.error msg →
      authCallbackHandler env req world =
        (respAuthFailed msg, ["oidcConfig", "token", "userinfo", "apim"])) := by
  unfold authCallbackHandler authCallbackAfterFreshness
  simp only [hcode, hstate, hdec, hfresh, hcfg, htok, herr, hui, hprov, Bool.or_self,
    Bool.false_eq_true, if_false]
  constructor
  · intro loc hf
    simp [hf]
  · intro msg hf
    simp [hf, respAuthFailed]

theorem provisioning_fallback_redirect_witness :
    authCallbackHandler cbEnvA cbReqB cbWorldB =
      (resp302 ("https://afdevapi.developer.azure-api.net/dashboard?userId=okta123&" ++
          "email=a.b%40x.com&firstName=Ann&lastName=Lee&" ++
          "registrationDate=2026-01-01T00%3A00%3A00.000Z&" ++
          "note=User+authenticated+via+Okta&salt=s1"),
        ["oidcConfig", "token", "userinfo", "apim"]) :=
  (provisioning_fallback_redirect cbEnvA cbReqB cbWorldB
      (Json.obj [("returnUrl", Json.str "/dashboard"), ("salt", Json.str "s1"),
        ("userId", Json.str "u1"), ("timestamp", Json.num 0)])
      cfgB (Json.obj [("access_token", Json.str "at")]) cbUiB "HTTP 500: boom"
      rfl rfl rfl rfl rfl rfl rfl rfl rfl).1
    ("https://afdevapi.developer.azure-api.net/dashboard?userId=okta123&" ++
      "email=a.b%40x.com&firstName=Ann&lastName=Lee&" ++
      "registrationDate=2026-01-01T00%3A00%3A00.000Z&" ++
      "note=User+authenticated+via+Okta&salt=s1") rfl

/-- C9: a state whose timestamp is a JSON string - not a number - can
still be coerced numerically by the comparison and rejected as expired:
both the integer string "0" and the fractional string "1.5" are rejected
under an old clock, contradicting the claim that a non-numeric timestamp
is never rejected. -/
theorem numeric_string_timestamp_counterexample :
    decodeState (jsStr cbReqD.state) =
      some (Json.obj [("returnUrl", Json.str "/r"), ("salt", Json.str "s1"),
        ("userId", Json.str "u1"), ("timestamp", Json.str "0")]) ∧
    (∀ n : Int, Json.str "0" ≠ Json.num n) ∧
    authCallbackHandler cbEnvA cbReqD cbWorldD =
      (resp400 "State parameter expired", []) ∧
    decodeState (jsStr cbReqF.state) =
      some (Json.obj [("returnUrl", Json.str "/r"), ("salt", Json.str "s1"),
        ("timestamp", Json.str "1.5")]) ∧
    authCallbackHandler cbEnvA cbReqF cbWorldD =
      (resp400 "State parameter expired", []) :=
  ⟨rfl, fun _ h => Json.noConfusion h, rfl, rfl, rfl⟩

/-- C9 (amended): a state with no timestamp field, or whose timestamp's
ToNumber coercion is NaN - a non-numeric string, a plain object, or an
array joining to a non-numeric string - never trips the freshness check
and is never answered with the expired-state error; a timestamp coercing
to a number, including fractional, exponent and radix string literals
and arrays joining to numeric strings, is compared and can be
rejected. -/
theorem missing_timestamp_never_expired (env : CallbackEnv) (req : CallbackRequest)
    (world : CallbackWorld) (stateData : Json)
    (hcode : jsFalsy req.code = false) (hstate : jsFalsy req.state = false)
    (hdec : decodeState (jsStr req.state) = some stateData)
    (hts : jsToNumber (jsonGet stateData "timestamp") = JsNum.nan) :
    freshnessExpired world.now stateData = false ∧
    (authCallbackHandler env req world).1.error ≠ some "State parameter expired" := by
  have hfr : freshnessExpired world.now stateData = false := by
    simp [freshnessExpired, hts]
  refine ⟨hfr, ?_⟩
  unfold authCallbackHandler
  simp only [hcode, hstate, hdec, hfr, Bool.or_self, Bool.false_eq_true, if_false]
  exact afterFreshness_no_expired env world stateData

theorem missing_timestamp_never_expired_witness :
    freshnessExpired cbWorldD.now
        (Json.obj [("returnUrl", Json.str "/r"), ("salt", Json.str "s1")]) = false ∧
    (authCallbackHandler cbEnvA cbReqE cbWorldD).1.error ≠
      some "State parameter expired" :=
  missing_timestamp_never_expired cbEnvA cbReqE cbWorldD
    (Json.obj [("returnUrl", Json.str "/r"), ("salt", Json.str "s1")])
    rfl rfl rfl rfl

end Apim